import Mathlib

/-!
# Peer discovery over UDP (`disco/udp.go`): embedding and properties

The development embeds the packet reader, the peer path table with its three
table operations (`OP_PEER_DISCO`, `OP_PEER_CONFIRM`, `OP_PEER_HEALTHCHECK`),
the address lookup `findPeerID`, the write to a peer, the ping campaign and the
STUN session bookkeeping of `disco/udp.go`, and proves properties of them. It
also embeds three collaborators: the expiry of the network secret
(`peer/secretstore.go`), the command line of the VPN client
(`cmd/pgcli/vpn/vpn.go`) and the authorization of the administrator API
(`peermap/auth/auth.go`, `peermap/admin/admin_v1.go`).

Conventions of the embedding

* A Go `string` / `[]byte` is a list of bytes (`List UInt8`); the texts of the
  command line, of tokens and of error messages, which are only compared or
  split at ASCII characters, are `String`s.
* A Go `map` is an association list; the order of the list is the order in
  which a `range` loop visits the entries.  Go leaves that order unspecified,
  so statements that depend on it quantify over every order (`Reordering`).
* `time.Time` is an integer count of nanoseconds since Go's zero time
  (`time.Time{}`), `time.Duration` is an `int64` count of nanoseconds:
  `Time.Sub` saturates, the multiplication of a duration wraps.
* Every table operation is applied atomically at one clock reading `now`
  (the source holds the table mutex for the whole operation).
-/

namespace Disco

/-! ## Bytes, identifiers, time -/

/-- A Go byte string. -/
abbrev Bytes := List UInt8

/-- The type `peer.PeerID`: a Go string. The empty id is `[]`. -/
abbrev PeerID := Bytes

/-! A `time.Time` is an `Int`: nanoseconds since the zero time `time.Time{}`.
A `time.Duration` is an `Int` too: nanoseconds, kept in the `int64` range by
`wrapInt64` (multiplication) and by the saturation of `Time.Sub`. -/

def minDuration : Int := -(2 ^ 63)

def maxDuration : Int := 2 ^ 63 - 1

/-- Two's complement wrap-around of an `int64` result. -/
def wrapInt64 (x : Int) : Int := (x + 2 ^ 63) % 2 ^ 64 - 2 ^ 63

/-- The method `Time.Sub`: the difference, saturated to the `int64` range. -/
def Time.Sub (t u : Int) : Int :=
  if t - u < minDuration then minDuration
  else if maxDuration < t - u then maxDuration
  else t - u

/-- The function `time.Since(t)`, read at the clock value `now`. -/
def Since (now t : Int) : Int := Time.Sub now t

/-- The method `Time.IsZero`. -/
def Time.IsZero (t : Int) : Bool := decide (t = 0)

/-- The constant `time.Second`. -/
def Second : Int := 1000000000

/-! ## Addresses (`net.IP`, `net.UDPAddr`) -/

/-- The constant `v4InV6Prefix` of package `net`. -/
def v4InV6Prefix : Bytes := [0, 0, 0, 0, 0, 0, 0, 0, 0, 0, 0xff, 0xff]

/-- The method `net.IP.Equal`: equal bytes, or an IPv4 address and its
IPv4-in-IPv6 form. -/
def IPEqual (ip x : Bytes) : Bool :=
  if ip.length = x.length then decide (ip = x)
  else if ip.length = 4 ∧ x.length = 16 then
    decide (x.take 12 = v4InV6Prefix) && decide (ip = x.drop 12)
  else if ip.length = 16 ∧ x.length = 4 then
    decide (ip.take 12 = v4InV6Prefix) && decide (ip.drop 12 = x)
  else false

/-- The method `net.IP.To4`: the 4-byte form of an IPv4 address, `nil` (the
empty list) when the address is not IPv4. -/
def To4 (ip : Bytes) : Bytes :=
  if ip.length = 4 then ip
  else if ip.length = 16 ∧ (ip.take 10).all (fun b => b == 0)
      ∧ ip.get? 10 = some 0xff ∧ ip.get? 11 = some 0xff then ip.drop 12
  else []

/-- A `net.UDPAddr` (the pointer is not nil). -/
structure UDPAddr where
  IP : Bytes
  Port : Int
  Zone : String
deriving DecidableEq, Repr

/-- The key under which a path is stored, `Addr.String()`.  The text that
`net.UDPAddr.String` renders is `host:port` where the host is the IP in its
shortest form (dotted IPv4 also for an IPv4-in-IPv6 address) followed by
`%zone` when the zone is not empty.  The text determines, and is determined
by, these three components, which stand for it here. -/
structure AddrKey where
  IP : Bytes
  Zone : String
  Port : Int
deriving DecidableEq, Repr

/-- The method `net.UDPAddr.String`, as a map key. -/
def UDPAddr.String (a : UDPAddr) : AddrKey :=
  { IP := if (To4 a.IP).length = 4 then To4 a.IP else a.IP, Zone := a.Zone, Port := a.Port }

/-- The test `state.Addr.IP.Equal(addr.IP) && state.Addr.Port == addr.Port`
used by `OP_PEER_CONFIRM` and by `findPeerID`. -/
def sameAddr (s a : UDPAddr) : Bool := IPEqual s.IP a.IP && decide (s.Port = a.Port)

/-! ## Go maps as association lists -/

/-- The lookup `m[k]` with its `ok` flag. -/
def mapGet {K V : Type} [DecidableEq K] : List (K × V) → K → Option V
  | [], _ => none
  | (k', v) :: r, k => if k' = k then some v else mapGet r k

/-- The assignment `m[k] = v`: replaces the entry of `k`, or adds one. -/
def mapSet {K V : Type} [DecidableEq K] : List (K × V) → K → V → List (K × V)
  | [], k, v => [(k, v)]
  | (k', v') :: r, k, v => if k' = k then (k, v) :: r else (k', v') :: mapSet r k v

/-- The statement `delete(m, k)`. -/
def mapDelete {K V : Type} [DecidableEq K] (m : List (K × V)) (k : K) : List (K × V) :=
  m.filter (fun e => !decide (e.1 = k))

/-! ## The peer path table -/

/-- The type `PeerState`: one path of a peer. A `LastActiveTime` of zero
means the path was never confirmed. -/
structure PeerState where
  Addr : UDPAddr
  LastActiveTime : Int
deriving DecidableEq, Repr

/-- The type `PeerContext`: the paths of one peer, keyed by `Addr.String()`. -/
structure PeerContext where
  States : List (AddrKey × PeerState)
  CreateTime : Int
deriving DecidableEq, Repr

/-- The operation codes of a `PeerOP`. -/
inductive Op where
  | OP_PEER_DISCO
  | OP_PEER_CONFIRM
  | OP_PEER_HEALTHCHECK
deriving DecidableEq, Repr

/-- The type `PeerOP`. `OP_PEER_HEALTHCHECK` leaves `PeerID` and `Addr` at
their zero values and never reads them. -/
structure PeerOP where
  Op : Op
  PeerID : PeerID
  Addr : UDPAddr
deriving DecidableEq, Repr

/-- The type `STUNSession`. -/
structure STUNSession where
  PeerID : PeerID
  CTime : Int
deriving DecidableEq, Repr

/-- The type `Datagram`. -/
structure Datagram where
  PeerID : PeerID
  Data : Bytes
deriving DecidableEq, Repr

/-- The state of a `UDPConn` that the table operations, the packet reader
and the STUN bookkeeping read and write. -/
structure UDPConn where
  peerKeepaliveInterval : Int
  id : PeerID
  peersMap : List (PeerID × PeerContext)
  stunSessions : List (Bytes × STUNSession)
deriving DecidableEq, Repr

/-- The connection state built by `ListenUDP`: keepalive of ten seconds, empty
table, no STUN session. -/
def ListenUDP (id : PeerID) : UDPConn :=
  { peerKeepaliveInterval := 10 * Second, id := id, peersMap := [], stunSessions := [] }

/-- The expression `2*c.peerKeepaliveInterval`. -/
def UDPConn.twoKeepalive (c : UDPConn) : Int := wrapInt64 (2 * c.peerKeepaliveInterval)

/-- The expression `3*c.peerKeepaliveInterval`. -/
def UDPConn.threeKeepalive (c : UDPConn) : Int := wrapInt64 (3 * c.peerKeepaliveInterval)

/-- The test `time.Since(state.LastActiveTime) > 2*c.peerKeepaliveInterval`. -/
def UDPConn.stale (c : UDPConn) (now : Int) (state : PeerState) : Bool :=
  decide (c.twoKeepalive < Since now state.LastActiveTime)

/-- The body of `OP_PEER_CONFIRM` on the paths of one peer: every path whose
address equals the event's gets `LastActiveTime = now`. -/
def confirmStates (now : Int) (addr : UDPAddr) (states : List (AddrKey × PeerState)) :
    List (AddrKey × PeerState) :=
  states.map (fun e => if sameAddr e.2.Addr addr then (e.1, { e.2 with LastActiveTime := now }) else e)

/-- The body of `OP_PEER_HEALTHCHECK` on one table entry: a peer created more
than three keepalives ago loses its stale paths (`delete(v.States, addr)` on
the path being visited); a peer left without a path is deleted. -/
def sweepPeer (c : UDPConn) (now : Int) (e : PeerID × PeerContext) : Option (PeerID × PeerContext) :=
  let v : PeerContext :=
    if c.threeKeepalive < Since now e.2.CreateTime then
      { e.2 with States := e.2.States.filter (fun s => !c.stale now s.2) }
    else e.2
  if v.States.length = 0 then none else some (e.1, v)

/-- The closure `handlePeerEvent` of `runPeerOPLoop`, applied at clock `now`. -/
def UDPConn.handlePeerEvent (c : UDPConn) (now : Int) (e : PeerOP) : UDPConn :=
  match e.Op with
  | .OP_PEER_DISCO =>
    let peersMap :=
      match mapGet c.peersMap e.PeerID with
      | some _ => c.peersMap
      | none => mapSet c.peersMap e.PeerID (PeerContext.mk [] now)
    match mapGet peersMap e.PeerID with
    | some peerCtx =>
      { c with peersMap := mapSet peersMap e.PeerID (PeerContext.mk
          (mapSet peerCtx.States (UDPAddr.String e.Addr) (PeerState.mk e.Addr 0))
          peerCtx.CreateTime) }
    | none => { c with peersMap := peersMap }
  | .OP_PEER_CONFIRM =>
    match mapGet c.peersMap e.PeerID with
    | some peer =>
      { c with peersMap := mapSet c.peersMap e.PeerID (PeerContext.mk
          (confirmStates now e.Addr peer.States) peer.CreateTime) }
    | none => c
  | .OP_PEER_HEALTHCHECK =>
    { c with peersMap := c.peersMap.filterMap (sweepPeer c now) }

/-- The inner loop of `findPeerID` over the paths of the peer `k`: `none`
when no path has the address (the outer loop goes on), otherwise the value
returned. -/
def findInStates (c : UDPConn) (now : Int) (udpAddr : UDPAddr) (k : PeerID) :
    List (AddrKey × PeerState) → Option PeerID
  | [] => none
  | (_, state) :: r =>
    if !sameAddr state.Addr udpAddr then findInStates c now udpAddr k r
    else if c.stale now state then some []
    else some k

/-- The outer loop of `findPeerID`. -/
def findInPeers (c : UDPConn) (now : Int) (udpAddr : UDPAddr) :
    List (PeerID × PeerContext) → PeerID
  | [] => []
  | (k, v) :: r =>
    match findInStates c now udpAddr k v.States with
    | some res => res
    | none => findInPeers c now udpAddr r

/-- The method `findPeerID`, read at clock `now`; `none` is the nil address. -/
def UDPConn.findPeerID (c : UDPConn) (now : Int) (udpAddr : Option UDPAddr) : PeerID :=
  match udpAddr with
  | none => []
  | some a => findInPeers c now a c.peersMap

/-! ## The packet reader -/

/-- The text `"_ping"`. -/
def pingPrefix : Bytes := [0x5F, 0x70, 0x69, 0x6E, 0x67]

/-- The frame `[]byte("_ping"+c.id)` written by `RunDiscoMessageSendLoop`. -/
def UDPConn.pingFrame (c : UDPConn) : Bytes := pingPrefix ++ c.id

/-- The constant `headerLen` of `tailscale.com/net/stun`. -/
def stunHeaderLen : Nat := 20

/-- The constant `magicCookie` of `tailscale.com/net/stun`. -/
def stunMagicCookie : Bytes := [0x21, 0x12, 0xa4, 0x42]

/-- The function `stun.Is` of `tailscale.com/net/stun`: long enough, the top
two bits of the first byte zero, and the magic cookie in bytes 4 to 7. -/
def stunIs (b : Bytes) : Bool :=
  decide (stunHeaderLen ≤ b.length) &&
    (match b.head? with
      | some b0 => b0 &&& 0xC0 == 0
      | none => false) &&
    decide ((b.drop 4).take 4 = stunMagicCookie)

/-- What one turn of `runPacketEventLoop` hands on for a packet read. -/
inductive PacketEvent where
  | peerOP (e : PeerOP)
  | stunResponse (b : Bytes)
  | datagram (d : Datagram)
deriving DecidableEq, Repr

/-- One turn of `runPacketEventLoop` after a successful read of the packet
`pkt` (the bytes `buf[:n]`, so `n = pkt.length`) from `peerAddr`. -/
def UDPConn.runPacketEvent (c : UDPConn) (now : Int) (pkt : Bytes) (peerAddr : UDPAddr) :
    PacketEvent :=
  let n := pkt.length
  if n > 4 ∧ pkt.take 5 = pingPrefix ∧ n ≤ 260 then
    .peerOP { Op := .OP_PEER_CONFIRM, PeerID := pkt.drop 5, Addr := peerAddr }
  else if stunIs pkt then
    .stunResponse pkt
  else
    .datagram { PeerID := c.findPeerID now (some peerAddr), Data := pkt }

/-- The event `&PeerOP{Op: OP_PEER_HEALTHCHECK}` that `runPeersHealthcheckLoop`
enqueues: the other fields are zero values. -/
def healthcheckOP : PeerOP :=
  { Op := .OP_PEER_HEALTHCHECK, PeerID := [], Addr := { IP := [], Port := 0, Zone := "" } }

/-- The event that `RunDiscoMessageSendLoop(peerID, addr)` enqueues first:
the table operation "observe". -/
def discoOP (peerID : PeerID) (addr : UDPAddr) : PeerOP :=
  { Op := .OP_PEER_DISCO, PeerID := peerID, Addr := addr }

/-- The event that the packet reader enqueues for a ping: the table
operation "confirm". -/
def confirmOP (peerID : PeerID) (addr : UDPAddr) : PeerOP :=
  { Op := .OP_PEER_CONFIRM, PeerID := peerID, Addr := addr }

/-- The path of a packet through the packet reader and, when the reader
emits a peer event, through the `peersOPs` channel into `handlePeerEvent`:
the state of the connection afterwards. -/
def UDPConn.deliverPacket (c : UDPConn) (now : Int) (pkt : Bytes) (peerAddr : UDPAddr) : UDPConn :=
  match c.runPacketEvent now pkt peerAddr with
  | .peerOP e => c.handlePeerEvent now e
  | _ => c

/-- The keepalive interval is not negative and three times it is below the
largest `time.Duration`, so `2*keepalive` and `3*keepalive` do not wrap. The
interval set by `ListenUDP`, ten seconds, is in this range. -/
def UDPConn.keepaliveInRange (c : UDPConn) : Prop :=
  0 ≤ c.peerKeepaliveInterval ∧ 3 * c.peerKeepaliveInterval < maxDuration

/-- The events consumed by `runPeerOPLoop`, one after the other, each applied
at its own clock reading. -/
def UDPConn.runPeerOPs (c : UDPConn) : List (Int × PeerOP) → UDPConn
  | [] => c
  | (t, e) :: rest => (c.handlePeerEvent t e).runPeerOPs rest

/-- A `netip.AddrPort`; the `Addr` is its 4 or 16 bytes, and the zero `Addr`
has no bytes. -/
structure AddrPort where
  IP : Bytes
  Port : Nat
deriving DecidableEq, Repr

/-- The method `netip.AddrPort.IsValid`. -/
def AddrPort.IsValid (a : AddrPort) : Bool := !a.IP.isEmpty

/-- The errors of `stun.ParseResponse`. -/
inductive STUNError where
  | ErrNotSTUN
  | ErrNotSuccessResponse
  | ErrMalformedAttrs
deriving DecidableEq, Repr

/-- The function `binary.BigEndian.Uint16` on the first two bytes of `b`; its
callers have checked that `b` has them. -/
def beUint16 (b : Bytes) : Nat := (b.getD 0 0).toNat * 256 + (b.getD 1 0).toNat

/-- The function `familyAddrLen` of `tailscale.com/net/stun`: `net.IPv4len`
for family `0x01`, `net.IPv6len` for family `0x02`, otherwise 0. -/
def familyAddrLen (fam : UInt8) : Nat :=
  if fam = 0x01 then 4 else if fam = 0x02 then 16 else 0

/-- The function `xorMappedAddress` of `tailscale.com/net/stun`: the address
bytes and the port of an XOR-MAPPED-ADDRESS attribute, `none` for
`ErrMalformedAttrs`. The port is xor-ed with `0x2112`, the i-th address byte
with the i-th byte of the magic cookie when `i < 4` and with byte `i - 4` of
the transaction id otherwise. -/
def xorMappedAddress (tID b : Bytes) : Option (Bytes × Nat) :=
  if b.length < 4 then none
  else
    let xorPort := beUint16 (b.drop 2)
    let addrField := b.drop 4
    let port := xorPort ^^^ 0x2112
    let addrLen := familyAddrLen (b.getD 1 0)
    if addrLen = 0 then none
    else if addrField.length < addrLen then none
    else
      let xorAddr := addrField.take addrLen
      some ((List.range xorAddr.length).map (fun i =>
        if i < stunMagicCookie.length then xorAddr.getD i 0 ^^^ stunMagicCookie.getD i 0
        else xorAddr.getD i 0 ^^^ tID.getD (i - stunMagicCookie.length) 0), port)

/-- The function `mappedAddress` of `tailscale.com/net/stun`: the address bytes
and the port of a MAPPED-ADDRESS attribute, `none` for `ErrMalformedAttrs`. -/
def mappedAddress (b : Bytes) : Option (Bytes × Nat) :=
  if b.length < 4 then none
  else
    let port := beUint16 (b.drop 2)
    let addrField := b.drop 4
    let addrLen := familyAddrLen (b.getD 1 0)
    if addrLen = 0 then none
    else if addrField.length < addrLen then none
    else some (addrField.take addrLen, port)

/-- The function `netip.AddrFromSlice`: a slice of 4 or 16 bytes is an address. -/
def AddrFromSlice (slice : Bytes) : Option Bytes :=
  if slice.length = 4 ∨ slice.length = 16 then some slice else none

/-- The method `netip.Addr.Unmap`: an IPv4-in-IPv6 address becomes its last
four bytes, any other address is kept. -/
def AddrUnmap (ip : Bytes) : Bytes :=
  if ip.length = 16 ∧ ip.take 12 = v4InV6Prefix then ip.drop 12 else ip

/-- The loop of the function `foreachAttr` of `tailscale.com/net/stun`, run for
at most `fuel` turns: while bytes are left, fewer than 4 are malformed; the
type and the length of the attribute are read, the length is rounded up to a
multiple of 4 (`(attrLen + 3) &^ 3`), a rounded length beyond the bytes left is
malformed, `fn` gets the type and the attribute bytes, and the loop goes on
after the padding. Every turn takes at least 4 bytes, so `len(b)` turns are
enough (`foreachAttrLoop_fuel`). -/
def foreachAttrLoop {σ : Type} (fn : Nat → Bytes → σ → Except STUNError σ) :
    Nat → Bytes → σ → Except STUNError σ
  | 0, b, st => if b.length = 0 then .ok st else .error .ErrMalformedAttrs
  | fuel + 1, b, st =>
    if b.length = 0 then .ok st
    else if b.length < 4 then .error .ErrMalformedAttrs
    else
      let attrType := beUint16 b
      let attrLen := beUint16 (b.drop 2)
      let attrLenWithPad := (attrLen + 3) - (attrLen + 3) % 4
      let b := b.drop 4
      if attrLenWithPad > b.length then .error .ErrMalformedAttrs
      else
        match fn attrType (b.take attrLen) st with
        | .error e => .error e
        | .ok st' => foreachAttrLoop fn fuel (b.drop attrLenWithPad) st'

/-- The function `foreachAttr` of `tailscale.com/net/stun`. -/
def foreachAttr {σ : Type} (fn : Nat → Bytes → σ → Except STUNError σ) (b : Bytes) (st : σ) :
    Except STUNError σ :=
  foreachAttrLoop fn b.length b st

/-- The closure that `stun.ParseResponse` hands to `foreachAttr`, on the pair
of its variables `addr` and `fallbackAddr`: an XOR-MAPPED-ADDRESS attribute
(type `0x0020`, or `0x8020`) sets `addr`, a MAPPED-ADDRESS attribute (type
`0x0001`) sets `fallbackAddr`, any other attribute is passed over. -/
def parseAttr (tID : Bytes) (attrType : Nat) (attr : Bytes) (st : AddrPort × AddrPort) :
    Except STUNError (AddrPort × AddrPort) :=
  if attrType = 0x0020 ∨ attrType = 0x8020 then
    match xorMappedAddress tID attr with
    | none => .error .ErrMalformedAttrs
    | some (ipSlice, port) =>
      match AddrFromSlice ipSlice with
      | some ip => .ok (AddrPort.mk (AddrUnmap ip) port, st.2)
      | none => .ok st
  else if attrType = 0x0001 then
    match mappedAddress attr with
    | none => .error .ErrMalformedAttrs
    | some (ipSlice, port) =>
      match AddrFromSlice ipSlice with
      | some ip => .ok (st.1, AddrPort.mk (AddrUnmap ip) port)
      | none => .ok st
  else .ok st

/-- The function `stun.ParseResponse` of the library `tailscale.com/net/stun`
(file `stun.go`), which `runSTUNEventLoop` calls: a message that is not STUN is
refused, the transaction id is bytes 8 to 19, a message whose type is not
Binding Success (`0x01 0x01`) is refused; the attribute length is read from
bytes 2 and 3, a length beyond the bytes after the header is malformed, bytes
after that length are cut off; the attributes are walked, and the result is the
XOR-MAPPED-ADDRESS if it is valid, else the MAPPED-ADDRESS if it is valid, else
the message is malformed. -/
def ParseResponse (b : Bytes) : Except STUNError (Bytes × AddrPort) :=
  if !stunIs b then .error .ErrNotSTUN
  else
    let tID := (b.drop 8).take 12
    if b.get? 0 ≠ some 0x01 ∨ b.get? 1 ≠ some 0x01 then .error .ErrNotSuccessResponse
    else
      let attrsLen := beUint16 (b.drop 2)
      let b := b.drop stunHeaderLen
      if attrsLen > b.length then .error .ErrMalformedAttrs
      else
        let b := if b.length > attrsLen then b.take attrsLen else b
        match foreachAttr (parseAttr tID) b (AddrPort.mk [] 0, AddrPort.mk [] 0) with
        | .error e => .error e
        | .ok (addr, fallbackAddr) =>
          if addr.IsValid then .ok (tID, addr)
          else if fallbackAddr.IsValid then .ok (tID, fallbackAddr)
          else .error .ErrMalformedAttrs

/-- What the STUN code reads from outside the connection state:
`net.ResolveUDPAddr` on a server name and on the text of a mapped address,
whether a write to the socket succeeds, and whether `findPeer` finds the peer
ready after the sleep that follows the i-th server. -/
structure STUNEnv where
  resolveServer : Bytes → Option UDPAddr
  resolveAddrPort : AddrPort → Option UDPAddr
  writeOK : UDPAddr → Bool
  peerFound : Nat → Bool

/-- The type `PeerUDPAddrEvent`. -/
structure PeerUDPAddrEvent where
  PeerID : PeerID
  Addr : UDPAddr
deriving DecidableEq, Repr

/-- The loop of `requestSTUN` over the servers, from the i-th on: the
addresses to which a request was written. -/
def requestSTUNLoop (env : STUNEnv) : Nat → List Bytes → List UDPAddr
  | _, [] => []
  | i, stunServer :: rest =>
    match env.resolveServer stunServer with
    | none => requestSTUNLoop env (i + 1) rest
    | some uaddr =>
      if !env.writeOK uaddr then requestSTUNLoop env (i + 1) rest
      else if env.peerFound i then [uaddr]
      else uaddr :: requestSTUNLoop env (i + 1) rest

/-- The method `requestSTUN`, with the transaction id drawn by `stun.NewTxID`
and the clock reading as arguments: the connection state afterwards and the
addresses written to. -/
def UDPConn.requestSTUN (c : UDPConn) (env : STUNEnv) (txID : Bytes) (now : Int)
    (peerID : PeerID) (stunServers : List Bytes) : UDPConn × List UDPAddr :=
  ({ c with stunSessions := mapSet c.stunSessions txID (STUNSession.mk peerID now) },
    requestSTUNLoop env 0 stunServers)

/-- One turn of `runSTUNEventLoop` on the response `stunResp`: the connection
state afterwards and the event sent on `udpAddrSends`, if any. -/
def UDPConn.handleSTUNResponse (c : UDPConn) (env : STUNEnv) (stunResp : Bytes) :
    UDPConn × Option PeerUDPAddrEvent :=
  match ParseResponse stunResp with
  | .error _ => (c, none)
  | .ok (txid, saddr) =>
    match mapGet c.stunSessions txid with
    | none => (c, none)
    | some tx =>
      if !saddr.IsValid then (c, none)
      else
        match env.resolveAddrPort saddr with
        | none => (c, none)
        | some addr =>
          ({ c with stunSessions := mapDelete c.stunSessions txid },
            some (PeerUDPAddrEvent.mk tx.PeerID addr))

/-- An environment in which every lookup and write succeeds and the peer is
never found ready. -/
def exampleSTUNEnv : STUNEnv :=
  { resolveServer := fun _ => some ⟨[198, 51, 100, 1], 3478, ""⟩
    resolveAddrPort := fun s => some ⟨s.IP, s.Port, ""⟩
    writeOK := fun _ => true
    peerFound := fun _ => false }

/-! ## Vocabulary for statements about sequences of table operations -/

/-- The table `T` holds, for peer `k`, the path `st` under the key `s`. -/
def hasPath (T : List (PeerID × PeerContext)) (k : PeerID) (s : AddrKey) (st : PeerState) : Prop :=
  ∃ v, (k, v) ∈ T ∧ (s, st) ∈ v.States

/-- The same connection with its table visited in the order `T`. -/
def UDPConn.withOrder (c : UDPConn) (T : List (PeerID × PeerContext)) : UDPConn :=
  { c with peersMap := T }

/-! ## Writing to a peer (`WriteToUDP`) -/

/-- Modelled from the spec: the method `PeerContext.Ready`, declared outside
`disco/udp.go`. "A peer is ready iff at least one of its paths has
`last_active_at` within `2·keepalive`." -/
def PeerContext.Ready (c : UDPConn) (now : Int) (peer : PeerContext) : Bool :=
  peer.States.any (fun s => !c.stale now s.2)

/-- The errors a write to a peer can report. `ErrUseOfClosedConnection` is the
package's error value; `PeerUnreachable` is the error kind of the written
specification, which no statement of `disco/udp.go` produces; `socket` stands
for the errors of the operating system's socket. -/
inductive WriteError where
  | ErrUseOfClosedConnection
  | PeerUnreachable
  | socket (code : Nat)
deriving DecidableEq, Repr

/-- What a call of `WriteToUDP` did: the packets handed to the socket, and the
byte count and error returned. -/
structure WriteResult where
  written : List (Bytes × UDPAddr)
  n : Int
  err : Option WriteError
deriving DecidableEq, Repr

/-- The method `findPeer`; the method `peer.Ready()` is the parameter `Ready`. -/
def UDPConn.findPeer (c : UDPConn) (Ready : PeerContext → Bool) (peerID : PeerID) :
    Option PeerContext :=
  match mapGet c.peersMap peerID with
  | some peer => if Ready peer then some peer else none
  | none => none

/-- The method `UDPConn.WriteToUDP(p, peerID)`. The methods `peer.Ready()` and
`peer.Select()` and the write of the embedded `net.UDPConn` (byte count and
error) are parameters. -/
def UDPConn.WriteToUDP (c : UDPConn) (Ready : PeerContext → Bool)
    (Select : PeerContext → UDPAddr) (socketWrite : Bytes → UDPAddr → Int × Option WriteError)
    (p : Bytes) (peerID : PeerID) : WriteResult :=
  match c.findPeer Ready peerID with
  | some peer =>
    let addr := Select peer
    { written := [(p, addr)], n := (socketWrite p addr).1, err := (socketWrite p addr).2 }
  | none => { written := [], n := 0, err := some WriteError.ErrUseOfClosedConnection }

/-- A socket on which every write succeeds. -/
def exampleSocketWrite (p : Bytes) (_ : UDPAddr) : Int × Option WriteError := (p.length, none)

/-- A selection that takes the first path of the peer. -/
def exampleSelect (peer : PeerContext) : UDPAddr :=
  match peer.States with
  | [] => { IP := [], Port := 0, Zone := "" }
  | s :: _ => s.2.Addr

/-! ## The network secret (`peer/secretstore.go`) -/

/-- The function `time.Until(t)`, read at the clock value `now`. -/
def Until (now t : Int) : Int := Time.Sub t now

/-- The type `NetworkSecret`. -/
structure NetworkSecret where
  Secret : String
  Network : String
  Expire : Int
deriving DecidableEq, Repr

/-- The method `NetworkSecret.Expired`, read at the clock value `now`. -/
def NetworkSecret.Expired (s : NetworkSecret) (now : Int) : Bool :=
  decide (Until now s.Expire ≤ 0)

/-! ## The ping campaign (`RunDiscoMessageSendLoop`) -/

/-- The constant `time.Millisecond`. -/
def Millisecond : Int := 1000000

/-- One ping written to the socket, and the sleep that followed it. -/
structure PingSent where
  frame : Bytes
  addr : UDPAddr
  wait : Int
deriving DecidableEq, Repr

/-- The test `c.findPeerID(addr) != ""` at the i-th turn of the loop: the table
then is `table i` and the clock reads `clock i`. -/
def UDPConn.peerDiscovered (c : UDPConn) (addr : UDPAddr)
    (table : Nat → List (PeerID × PeerContext)) (clock : Nat → Int) (i : Nat) : Bool :=
  (c.withOrder (table i)).findPeerID (clock i) (some addr) != []

/-- Whether the i-th turn of the loop leaves it: the close signal is there, or
`interval == c.peerKeepaliveInterval && !peerDiscovered`. -/
def UDPConn.loopExits (c : UDPConn) (closed discovered : Bool) (interval : Int) : Bool :=
  closed || (decide (interval = c.peerKeepaliveInterval) && !discovered)

/-- The interval after the statement
`if peerDiscovered || i >= 32 { interval = c.peerKeepaliveInterval }`. -/
def UDPConn.nextInterval (c : UDPConn) (discovered : Bool) (i : Nat) (interval : Int) : Int :=
  if discovered = true ∨ i ≥ 32 then c.peerKeepaliveInterval else interval

/-- The `for` loop of `RunDiscoMessageSendLoop` from its i-th turn on, run for
at most `fuel` turns: the pings sent with the sleep after each, and whether the
loop was left (`false`: it is still running after `fuel` turns). `closedSig i`
tells whether the close signal is there at the i-th turn. -/
def UDPConn.discoLoop (c : UDPConn) (addr : UDPAddr) (closedSig : Nat → Bool)
    (table : Nat → List (PeerID × PeerContext)) (clock : Nat → Int) :
    Nat → Nat → Int → List PingSent × Bool
  | 0, _, _ => ([], false)
  | fuel + 1, i, interval =>
    if c.loopExits (closedSig i) (c.peerDiscovered addr table clock i) interval then ([], true)
    else
      let interval' := c.nextInterval (c.peerDiscovered addr table clock i) i interval
      let rest := c.discoLoop addr closedSig table clock fuel (i + 1) interval'
      (PingSent.mk c.pingFrame addr interval' :: rest.1, rest.2)

/-- The method `RunDiscoMessageSendLoop(peerID, addr)`, run for at most `fuel`
turns of its loop: the event sent on `peersOPs`, then the loop from turn 0
with the interval of 500 ms. -/
def UDPConn.RunDiscoMessageSendLoop (c : UDPConn) (peerID : PeerID) (addr : UDPAddr)
    (closedSig : Nat → Bool) (table : Nat → List (PeerID × PeerContext)) (clock : Nat → Int)
    (fuel : Nat) : PeerOP × List PingSent × Bool :=
  (discoOP peerID addr, c.discoLoop addr closedSig table clock fuel 0 (500 * Millisecond))

/-! ## The administrator API (`peermap/auth`, `peermap/admin`) -/

/-- The type `langs.Error`. -/
structure LangsError where
  Code : Nat
  Msg : String
deriving DecidableEq, Repr

def ErrInvalidToken : LangsError := { Code := 9000, Msg := "invalid token" }

def ErrTokenExpired : LangsError := { Code := 9001, Msg := "token expired" }

def ErrForbidden : LangsError := { Code := 10000, Msg := "forbidden" }

/-- The type `JSONSecret`. -/
structure JSONSecret where
  Network : String
  Admin : Bool
  Alias : String
  Neighbors : List String
  Deadline : Int
deriving DecidableEq, Repr

/-- The type `Authenticator`. -/
structure Authenticator where
  key : Bytes
deriving DecidableEq, Repr

/-- The functions outside the two packages that `ParseSecret` and `ServeHTTP`
call: `base64.URLEncoding.DecodeString`, `aescbc.Decrypt`, `json.Unmarshal`
into a `JSONSecret` (`none` is an error), and the field `Grant` followed by
`json.Marshal` of the granted secret (`none` is an error of `Grant`). -/
structure AdminEnv where
  DecodeString : String → Option Bytes
  Decrypt : Bytes → Bytes → Option Bytes
  Unmarshal : Bytes → Option JSONSecret
  Grant : String → String → Option String

/-- The constant `unixToInternal` of package `time`: seconds from Go's zero
time to the Unix epoch. -/
def unixToInternal : Int := 62135596800

/-- The function `time.Unix(sec, 0)`: the `int64` sum `sec + unixToInternal`
wraps. -/
def timeUnix (sec : Int) : Int := wrapInt64 (sec + unixToInternal) * Second

/-- The method `Authenticator.ParseSecret`, read at the clock value `now`. -/
def Authenticator.ParseSecret (auth : Authenticator) (env : AdminEnv) (now : Int)
    (networkIDChiper : String) : JSONSecret × Option LangsError :=
  match env.DecodeString networkIDChiper with
  | none => (JSONSecret.mk "" false "" [] 0, some ErrInvalidToken)
  | some chiperData =>
    match env.Decrypt auth.key chiperData with
    | none => (JSONSecret.mk "" false "" [] 0, some ErrInvalidToken)
    | some plainData =>
      match env.Unmarshal plainData with
      | none => (JSONSecret.mk "" false "" [] 0, some ErrInvalidToken)
      | some token =>
        if Until now (timeUnix token.Deadline) ≤ 0 then (token, some ErrTokenExpired)
        else (token, none)

/-- The part of an `http.Request` that `ServeHTTP` reads or hands on. -/
structure Request where
  Method : String
  Path : String
  XToken : String
deriving DecidableEq, Repr

/-- What `ServeHTTP` does with the request: it writes an error, or it calls
`a.mux.ServeHTTP` with the request that carries the secret in its context. -/
inductive Served where
  | error (e : LangsError)
  | mux (r : Request) (secret : JSONSecret)
deriving DecidableEq, Repr

/-- The effect of `ServeHTTP` on the response: the values added to the header
`X-Set-Token`, and what served the request. -/
structure Response where
  SetToken : List String
  served : Served
deriving DecidableEq, Repr

/-- The type `AdministratorV1`: the two periods of its `Config` and its
authenticator. -/
structure AdministratorV1 where
  SecretValidityPeriod : Int
  SecretRotationPeriod : Int
  Auth : Authenticator
deriving DecidableEq, Repr

/-- The method `AdministratorV1.ServeHTTP`, read at the clock value `now`. -/
def AdministratorV1.ServeHTTP (a : AdministratorV1) (env : AdminEnv) (now : Int) (r : Request) :
    Response :=
  match a.Auth.ParseSecret env now r.XToken with
  | (_, some err) => { SetToken := [], served := Served.error err }
  | (secret, none) =>
    if !secret.Admin then { SetToken := [], served := Served.error ErrForbidden }
    else
      let header :=
        if Until now (timeUnix secret.Deadline) <
            wrapInt64 (a.SecretValidityPeriod - a.SecretRotationPeriod) then
          match env.Grant secret.Network "PG_ADM" with
          | some b => [b]
          | none => []
        else []
      { SetToken := header, served := Served.mux r secret }

/-! ## The command line of the VPN client (`cmd/pgcli/vpn`) -/

/-- A Go `float64`, by its IEEE 754 bits. -/
structure Float64 where
  bits : Nat
deriving DecidableEq, Repr

/-- The constants `p2p.MODE_FORCE_PEER_RELAY` and `p2p.MODE_FORCE_RELAY`, and the
zero value of `p2p.TransportMode`. -/
inductive TransportMode where
  | MODE_DEFAULT
  | MODE_FORCE_PEER_RELAY
  | MODE_FORCE_RELAY
deriving DecidableEq, Repr

/-- The type `Config` of package `vpn`; `IPv4`, `IPv6` and `MTU` are the fields
of the embedded `nic.Config` that `createConfig` binds to flags. -/
structure Config where
  IPv4 : String
  IPv6 : String
  MTU : Int
  DiscoPortScanOffset : Int
  DiscoPortScanCount : Int
  DiscoPortScanDuration : Int
  DiscoChallengesRetry : Int
  DiscoChallengesInitialInterval : Int
  DiscoChallengesBackoffRate : Float64
  DiscoIgnoredInterfaces : List String
  TunName : String
  Peers : List String
  Port : Int
  PrivateKey : String
  SecretFile : String
  Server : String
  AuthQR : Bool
  P2pTransportMode : TransportMode
deriving DecidableEq, Repr

/-- The variables that the flags are bound to: the configuration, the locals
of `createConfig`, and the two variables that `Run` binds before the call. -/
structure FlagVars where
  cfg : Config
  forcePeerRelay : Bool
  forceServerRelay : Bool
  ignoredInterfaces : List String
  peers : List String
  pprof : Bool
  logLevel : Int
deriving DecidableEq, Repr

/-- The parsers of the standard library behind the typed flags:
`strconv.ParseInt(s, 0, 64)`, `time.ParseDuration` and
`strconv.ParseFloat(s, 64)`. Each returns a value and an error; the second
component tells whether the error is nil. With an error the value is still
there: zero, or the nearest bound when the number is out of range. -/
structure FlagParsers where
  ParseInt : String → Int × Bool
  ParseDuration : String → Int × Bool
  ParseFloat : String → Float64 × Bool

/-- The function `strconv.ParseBool`: the value, and whether the error is nil;
with an error the value is `false`. -/
def ParseBool (s : String) : Bool × Bool :=
  if s ∈ ["1", "t", "T", "TRUE", "true", "True"] then (true, true)
  else if s ∈ ["0", "f", "F", "FALSE", "false", "False"] then (false, true)
  else (false, false)

/-- The variable that a flag is bound to. -/
inductive FlagVar where
  | DiscoPortScanOffset
  | DiscoPortScanCount
  | DiscoPortScanDuration
  | DiscoChallengesRetry
  | DiscoChallengesInitialInterval
  | DiscoChallengesBackoffRate
  | ignoredInterfaces
  | IPv4
  | IPv6
  | MTU
  | TunName
  | PrivateKey
  | SecretFile
  | AuthQR
  | Server
  | peers
  | Port
  | forcePeerRelay
  | forceServerRelay
  | pprof
  | logLevel
deriving DecidableEq, Repr

/-- The map `formal` of the flag set when `createConfig` has defined its flags:
the two flags that `Run` defines before the call, then those of `createConfig`
in the order of the source. -/
def formal : List (String × FlagVar) :=
  [("pprof", FlagVar.pprof), ("loglevel", FlagVar.logLevel),
    ("disco-port-scan-offset", FlagVar.DiscoPortScanOffset),
    ("disco-port-scan-count", FlagVar.DiscoPortScanCount),
    ("disco-port-scan-duration", FlagVar.DiscoPortScanDuration),
    ("disco-challenges-retry", FlagVar.DiscoChallengesRetry),
    ("disco-challenges-initial-interval", FlagVar.DiscoChallengesInitialInterval),
    ("disco-challenges-backoff-rate", FlagVar.DiscoChallengesBackoffRate),
    ("disco-ignored-interface", FlagVar.ignoredInterfaces),
    ("ipv4", FlagVar.IPv4), ("4", FlagVar.IPv4), ("ipv6", FlagVar.IPv6), ("6", FlagVar.IPv6),
    ("mtu", FlagVar.MTU), ("tun", FlagVar.TunName), ("key", FlagVar.PrivateKey),
    ("secret-file", FlagVar.SecretFile), ("f", FlagVar.SecretFile),
    ("auth-qr", FlagVar.AuthQR), ("server", FlagVar.Server), ("s", FlagVar.Server),
    ("peer", FlagVar.peers), ("udp-port", FlagVar.Port),
    ("force-peer-relay", FlagVar.forcePeerRelay),
    ("force-server-relay", FlagVar.forceServerRelay)]

/-- The flags defined with `BoolVar`: their value is a `boolFlag` and they take
no argument. -/
def FlagVar.IsBoolFlag : FlagVar → Bool
  | FlagVar.AuthQR => true
  | FlagVar.forcePeerRelay => true
  | FlagVar.forceServerRelay => true
  | FlagVar.pprof => true
  | _ => false

/-- The method `Value.Set` of a flag: the variables after the assignment, and
whether the error is nil. The typed values of package `flag` (`intValue`,
`boolValue`, `durationValue`, `float64Value`) store what the parser returned
before they return its error, so the variable is overwritten also when the
value is refused; `stringValue` and `stringSlice` never refuse. -/
def FlagVar.Set (P : FlagParsers) (x : FlagVar) (value : String) (v : FlagVars) :
    FlagVars × Bool :=
  match x with
  | FlagVar.DiscoPortScanOffset =>
    ({ v with cfg := { v.cfg with DiscoPortScanOffset := (P.ParseInt value).1 } },
      (P.ParseInt value).2)
  | FlagVar.DiscoPortScanCount =>
    ({ v with cfg := { v.cfg with DiscoPortScanCount := (P.ParseInt value).1 } },
      (P.ParseInt value).2)
  | FlagVar.DiscoPortScanDuration =>
    ({ v with cfg := { v.cfg with DiscoPortScanDuration := (P.ParseDuration value).1 } },
      (P.ParseDuration value).2)
  | FlagVar.DiscoChallengesRetry =>
    ({ v with cfg := { v.cfg with DiscoChallengesRetry := (P.ParseInt value).1 } },
      (P.ParseInt value).2)
  | FlagVar.DiscoChallengesInitialInterval =>
    ({ v with cfg := { v.cfg with DiscoChallengesInitialInterval := (P.ParseDuration value).1 } },
      (P.ParseDuration value).2)
  | FlagVar.DiscoChallengesBackoffRate =>
    ({ v with cfg := { v.cfg with DiscoChallengesBackoffRate := (P.ParseFloat value).1 } },
      (P.ParseFloat value).2)
  | FlagVar.ignoredInterfaces =>
    ({ v with ignoredInterfaces := v.ignoredInterfaces ++ [value] }, true)
  | FlagVar.IPv4 => ({ v with cfg := { v.cfg with IPv4 := value } }, true)
  | FlagVar.IPv6 => ({ v with cfg := { v.cfg with IPv6 := value } }, true)
  | FlagVar.MTU =>
    ({ v with cfg := { v.cfg with MTU := (P.ParseInt value).1 } }, (P.ParseInt value).2)
  | FlagVar.TunName => ({ v with cfg := { v.cfg with TunName := value } }, true)
  | FlagVar.PrivateKey => ({ v with cfg := { v.cfg with PrivateKey := value } }, true)
  | FlagVar.SecretFile => ({ v with cfg := { v.cfg with SecretFile := value } }, true)
  | FlagVar.AuthQR =>
    ({ v with cfg := { v.cfg with AuthQR := (ParseBool value).1 } }, (ParseBool value).2)
  | FlagVar.Server => ({ v with cfg := { v.cfg with Server := value } }, true)
  | FlagVar.peers => ({ v with peers := v.peers ++ [value] }, true)
  | FlagVar.Port =>
    ({ v with cfg := { v.cfg with Port := (P.ParseInt value).1 } }, (P.ParseInt value).2)
  | FlagVar.forcePeerRelay =>
    ({ v with forcePeerRelay := (ParseBool value).1 }, (ParseBool value).2)
  | FlagVar.forceServerRelay =>
    ({ v with forceServerRelay := (ParseBool value).1 }, (ParseBool value).2)
  | FlagVar.pprof => ({ v with pprof := (ParseBool value).1 }, (ParseBool value).2)
  | FlagVar.logLevel => ({ v with logLevel := (P.ParseInt value).1 }, (P.ParseInt value).2)

/-- The errors of `FlagSet.parseOne`; `ErrHelp` is the request for help by an
undefined `-h` or `-help`. A refused value is reported with the name of the
flag and the text of the value, as in the message of the error. -/
inductive FlagError where
  | badSyntax
  | notDefined
  | ErrHelp
  | invalidBoolean (name value : String)
  | needsArgument
  | invalidValue (name value : String)
deriving DecidableEq, Repr

/-- The split of `name` at its first `=` that is not its first character:
the loop `for i := 1; i < len(name); i++` of `parseOne`. -/
def splitValue (name : List Char) : List Char × Option (List Char) :=
  match name with
  | [] => ([], none)
  | c :: rest =>
    match rest.span (fun x => x != '=') with
    | (pre, []) => (c :: pre, none)
    | (pre, _ :: value) => (c :: pre, some value)

/-- The state of the flag set when `FlagSet.Parse` stops: the variables, the
flags that were set in the order of the arguments (the map `actual` holds
their names; each stands here with the text of the value it was set to), and
the error if it stopped on one. -/
structure Parsed where
  vars : FlagVars
  actual : List (String × String)
  err : Option FlagError
deriving DecidableEq, Repr

/-- The result of one call of `FlagSet.parseOne`: a flag was seen and set (the
remaining arguments, the variables and the flags set so far), or the parse is
over, with an error or without, and the variables stand as given. -/
inductive ParseStep where
  | seen (args : List String) (v : FlagVars) (actual : List (String × String))
  | done (v : FlagVars) (err : Option FlagError)
deriving DecidableEq, Repr

/-- The second half of `FlagSet.parseOne`, once the name of the flag and the
value after `=`, if any, are read off the argument: the look-up in `formal`
and the assignment. A flag whose value is refused has been assigned
nevertheless, and is not entered in `actual`. -/
def setNamed (P : FlagParsers) (name : String) (value : Option String) (args : List String)
    (v : FlagVars) (actual : List (String × String)) : ParseStep :=
  match mapGet formal name with
  | none =>
    if name = "help" ∨ name = "h" then ParseStep.done v (some FlagError.ErrHelp)
    else ParseStep.done v (some FlagError.notDefined)
  | some flag =>
    if flag.IsBoolFlag then
      if (flag.Set P (value.getD "true") v).2 then
        ParseStep.seen args (flag.Set P (value.getD "true") v).1
          (actual ++ [(name, value.getD "true")])
      else
        ParseStep.done (flag.Set P (value.getD "true") v).1
          (some (FlagError.invalidBoolean name (value.getD "true")))
    else
      match value, args with
      | some value, _ =>
        if (flag.Set P value v).2 then
          ParseStep.seen args (flag.Set P value v).1 (actual ++ [(name, value)])
        else ParseStep.done (flag.Set P value v).1 (some (FlagError.invalidValue name value))
      | none, value :: args' =>
        if (flag.Set P value v).2 then
          ParseStep.seen args' (flag.Set P value v).1 (actual ++ [(name, value)])
        else ParseStep.done (flag.Set P value v).1 (some (FlagError.invalidValue name value))
      | none, [] => ParseStep.done v (some FlagError.needsArgument)

/-- The text of the argument after its one or two leading minus signs. -/
def afterMinuses (s : List Char) : List Char :=
  if s.get? 1 = some '-' then s.drop 2 else s.drop 1

/-- The method `FlagSet.parseOne`. An argument is a text; the tests of
`parseOne` on it look only at ASCII characters, so its characters stand for
its bytes. -/
def parseOne (P : FlagParsers) (args : List String) (v : FlagVars)
    (actual : List (String × String)) : ParseStep :=
  match args with
  | [] => ParseStep.done v none
  | s :: args =>
    if s.toList.length < 2 ∨ s.toList.head? ≠ some '-' then ParseStep.done v none
    else if s.toList = ['-', '-'] then ParseStep.done v none
    else if afterMinuses s.toList = [] ∨ (afterMinuses s.toList).head? = some '-' ∨
        (afterMinuses s.toList).head? = some '=' then
      ParseStep.done v (some FlagError.badSyntax)
    else
      setNamed P (String.mk (splitValue (afterMinuses s.toList)).1)
        ((splitValue (afterMinuses s.toList)).2.map String.mk) args v actual

/-- The loop of `FlagSet.Parse` over `parseOne`, for at most `fuel` turns; every
turn that goes on consumes an argument, so one turn more than there are
arguments is enough. -/
def parseFlags (P : FlagParsers) :
    Nat → List String → FlagVars → List (String × String) → Parsed
  | 0, _, v, actual => { vars := v, actual := actual, err := none }
  | fuel + 1, args, v, actual =>
    match parseOne P args v actual with
    | ParseStep.seen args' v' actual' => parseFlags P fuel args' v' actual'
    | ParseStep.done v' err => { vars := v', actual := actual, err := err }

/-- An environment of the examples: the token `"tok"` decodes, decrypts and
parses to an administrator's secret of network `"net"` with the deadline
2 000 000 000 s after the Unix epoch; `Grant` succeeds. -/
def exampleAdminEnv : AdminEnv :=
  { DecodeString := fun s => if s = "tok" then some [1] else none
    Decrypt := fun _ b => some b
    Unmarshal := fun b =>
      if b = [1] then some (JSONSecret.mk "net" true "" [] 2000000000) else none
    Grant := fun _ _ => some "renewed" }

/-! ## Facts about time arithmetic -/

theorem minDuration_eq : minDuration = -9223372036854775808 := by
  unfold minDuration; norm_num

theorem maxDuration_eq : maxDuration = 9223372036854775807 := by
  unfold maxDuration; norm_num

theorem wrapInt64_eq {x : Int} (h1 : minDuration ≤ x) (h2 : x ≤ maxDuration) : wrapInt64 x = x := by
  rw [minDuration_eq] at h1
  rw [maxDuration_eq] at h2
  unfold wrapInt64
  norm_num
  omega

theorem twoKeepalive_eq {c : UDPConn} (hk : c.keepaliveInRange) :
    c.twoKeepalive = 2 * c.peerKeepaliveInterval := by
  obtain ⟨h0, h3⟩ := hk
  rw [maxDuration_eq] at h3
  unfold UDPConn.twoKeepalive
  apply wrapInt64_eq
  · rw [minDuration_eq]; omega
  · rw [maxDuration_eq]; omega

theorem threeKeepalive_eq {c : UDPConn} (hk : c.keepaliveInRange) :
    c.threeKeepalive = 3 * c.peerKeepaliveInterval := by
  obtain ⟨h0, h3⟩ := hk
  rw [maxDuration_eq] at h3
  unfold UDPConn.threeKeepalive
  apply wrapInt64_eq
  · rw [minDuration_eq]; omega
  · rw [maxDuration_eq]; omega

theorem lt_Since_iff {d now t : Int} (h1 : minDuration ≤ d) (h2 : d < maxDuration) :
    d < Since now t ↔ d < now - t := by
  unfold Since Time.Sub
  rw [minDuration_eq] at *
  rw [maxDuration_eq] at *
  split
  · constructor <;> intro h <;> omega
  · split
    · constructor <;> intro h <;> omega
    · rfl

theorem stale_iff {c : UDPConn} (hk : c.keepaliveInRange) (now : Int) (st : PeerState) :
    c.stale now st = true ↔ 2 * c.peerKeepaliveInterval < now - st.LastActiveTime := by
  unfold UDPConn.stale
  rw [twoKeepalive_eq hk, decide_eq_true_iff]
  obtain ⟨h0, h3⟩ := hk
  rw [maxDuration_eq] at h3
  apply lt_Since_iff
  · rw [minDuration_eq]; omega
  · rw [maxDuration_eq]; omega

theorem old_iff {c : UDPConn} (hk : c.keepaliveInRange) (now t : Int) :
    c.threeKeepalive < Since now t ↔ 3 * c.peerKeepaliveInterval < now - t := by
  rw [threeKeepalive_eq hk]
  obtain ⟨h0, h3⟩ := hk
  rw [maxDuration_eq] at h3
  apply lt_Since_iff
  · rw [minDuration_eq]; omega
  · rw [maxDuration_eq]; omega

theorem keepaliveInRange_ListenUDP (id : PeerID) : (ListenUDP id).keepaliveInRange := by
  unfold UDPConn.keepaliveInRange ListenUDP Second
  rw [maxDuration_eq]
  norm_num

/-! ## The packet reader -/

theorem pingPrefix_length : pingPrefix.length = 5 := rfl

theorem take_pingFrame (id : Bytes) : (pingPrefix ++ id).take 5 = pingPrefix := by
  simp [pingPrefix]

theorem drop_pingFrame (id : Bytes) : (pingPrefix ++ id).drop 5 = id := by
  simp [pingPrefix]

/-- A packet that starts with `"_ping"` is not a STUN message: the top two
bits of `'_'` (0x5F) are not zero. -/
theorem stunIs_ping (pkt : Bytes) (h : pkt.take 5 = pingPrefix) : stunIs pkt = false := by
  match pkt, h with
  | [], h => simp [pingPrefix] at h
  | b :: r, h =>
    have hb : b = 0x5F := by
      simp [pingPrefix] at h
      exact h.1
    subst hb
    simp [stunIs]
    intro _ h2
    exact absurd h2 (by decide)

/-- C1. Ping framing round trip: for every sender whose peer id has 1 to 255
bytes, the frame `"_ping" ++ id` that `RunDiscoMessageSendLoop` writes is
classified as a ping by the packet reader of any receiver, and the peer id of
the emitted event (bytes 5..n) is the sender's id. -/
theorem ping_frame_roundtrip (sender receiver : UDPConn) (now : Int) (src : UDPAddr)
    (h1 : 1 ≤ sender.id.length) (h255 : sender.id.length ≤ 255) :
    receiver.runPacketEvent now sender.pingFrame src =
      PacketEvent.peerOP (confirmOP sender.id src) := by
  have hlen : (pingPrefix ++ sender.id).length = 5 + sender.id.length := by
    rw [List.length_append, pingPrefix_length]
  unfold UDPConn.runPacketEvent UDPConn.pingFrame confirmOP
  rw [if_pos, drop_pingFrame]
  exact ⟨by omega, take_pingFrame _, by omega⟩

theorem ping_frame_roundtrip_witness :
    1 ≤ (ListenUDP [65, 66]).id.length ∧ (ListenUDP [65, 66]).id.length ≤ 255 ∧
    (ListenUDP [67]).runPacketEvent 5 (ListenUDP [65, 66]).pingFrame ⟨[10, 0, 0, 1], 7000, ""⟩ =
      PacketEvent.peerOP (confirmOP [65, 66] ⟨[10, 0, 0, 1], 7000, ""⟩) :=
  ⟨by decide, by decide,
    ping_frame_roundtrip (ListenUDP [65, 66]) (ListenUDP [67]) 5 ⟨[10, 0, 0, 1], 7000, ""⟩
      (by decide) (by decide)⟩

/-- C8 (counterexample). The five-byte packet `"_ping"`, which carries no peer
id byte and whose length is not between 6 and 260, is handled as a ping: the
reader emits a peer event for the empty id. -/
theorem ping_without_id_is_handled :
    (ListenUDP [67]).runPacketEvent 5 pingPrefix ⟨[10, 0, 0, 1], 7000, ""⟩ =
      PacketEvent.peerOP (confirmOP [] ⟨[10, 0, 0, 1], 7000, ""⟩) ∧
    ¬ (6 ≤ pingPrefix.length ∧ pingPrefix.length ≤ 260) := by
  decide

/-- A packet that begins with `"_ping"` and has 5 to 260 bytes yields the peer
event `OP_PEER_CONFIRM`. -/
theorem runPacketEvent_of_ping (c : UDPConn) (now : Int) (pkt : Bytes) (src : UDPAddr)
    (h : pkt.take 5 = pingPrefix ∧ 5 ≤ pkt.length ∧ pkt.length ≤ 260) :
    c.runPacketEvent now pkt src = PacketEvent.peerOP (confirmOP (pkt.drop 5) src) := by
  unfold UDPConn.runPacketEvent confirmOP
  rw [if_pos]
  exact ⟨by omega, h.1, h.2.2⟩

/-- A peer event comes only from a packet that begins with `"_ping"` and has 5
to 260 bytes. -/
theorem runPacketEvent_peerOP_inv (c : UDPConn) (now : Int) (pkt : Bytes) (src : UDPAddr)
    (e : PeerOP) (he : c.runPacketEvent now pkt src = PacketEvent.peerOP e) :
    (pkt.take 5 = pingPrefix ∧ 5 ≤ pkt.length ∧ pkt.length ≤ 260) ∧
      e = confirmOP (pkt.drop 5) src := by
  unfold UDPConn.runPacketEvent at he
  by_cases hc : pkt.length > 4 ∧ pkt.take 5 = pingPrefix ∧ pkt.length ≤ 260
  · simp only [hc, and_self, if_true] at he
    injection he with he
    exact ⟨⟨hc.2.1, by omega, hc.2.2⟩, he.symm⟩
  · simp only [hc, if_false] at he
    split at he <;> cases he

/-- C8 (amended). The packet reader handles a packet as a ping, emitting the
peer event `OP_PEER_CONFIRM` for the id in bytes 5..n and the source address,
if and only if the packet begins with the 5 bytes `"_ping"` and its total
length is between 5 and 260 bytes, that is the carried peer id has 0 to 255
bytes; in every other case it emits no peer event. -/
theorem ping_handled_iff (c : UDPConn) (now : Int) (pkt : Bytes) (src : UDPAddr) :
    (c.runPacketEvent now pkt src = PacketEvent.peerOP (confirmOP (pkt.drop 5) src) ↔
      (pkt.take 5 = pingPrefix ∧ 5 ≤ pkt.length ∧ pkt.length ≤ 260)) ∧
    ((∃ e, c.runPacketEvent now pkt src = PacketEvent.peerOP e) ↔
      (∃ id : Bytes, pkt = pingPrefix ++ id ∧ id.length ≤ 255)) ∧
    (∀ e, c.runPacketEvent now pkt src = PacketEvent.peerOP e → e = confirmOP (pkt.drop 5) src) := by
  refine ⟨⟨fun h => (runPacketEvent_peerOP_inv c now pkt src _ h).1,
    runPacketEvent_of_ping c now pkt src⟩, ⟨?_, ?_⟩,
    fun e he => (runPacketEvent_peerOP_inv c now pkt src e he).2⟩
  · rintro ⟨e, he⟩
    obtain ⟨⟨ht, h5, h260⟩, _⟩ := runPacketEvent_peerOP_inv c now pkt src e he
    refine ⟨pkt.drop 5, ?_, ?_⟩
    · rw [← ht, List.take_append_drop]
    · rw [List.length_drop]; omega
  · rintro ⟨id, rfl, hid⟩
    have hlen : (pingPrefix ++ id).length = 5 + id.length := by
      rw [List.length_append, pingPrefix_length]
    exact ⟨_, runPacketEvent_of_ping c now _ src ⟨take_pingFrame id, by omega, by omega⟩⟩

/-- C9 (counterexample). A 261-byte packet that begins with `"_ping"` is not
ignored: the packet reader pushes it to the datagram queue. -/
theorem long_ping_is_queued :
    (pingPrefix ++ List.replicate 256 0).length = 261 ∧
    (ListenUDP [67]).runPacketEvent 5 (pingPrefix ++ List.replicate 256 0) ⟨[10, 0, 0, 1], 7000, ""⟩ =
      PacketEvent.datagram ⟨[], pingPrefix ++ List.replicate 256 0⟩ := by
  have hlen : (pingPrefix ++ List.replicate 256 (0 : UInt8)).length = 261 := by
    rw [List.length_append, List.length_replicate, pingPrefix_length]
  refine ⟨hlen, ?_⟩
  unfold UDPConn.runPacketEvent
  rw [if_neg, stunIs_ping _ (take_pingFrame _)]
  · rfl
  · omega

/-- C9 (amended). Every received packet that begins with `"_ping"` and is longer
than 260 bytes produces no peer event and is not forwarded as a STUN response;
it is pushed to the datagram queue, with all its bytes, tagged with the peer id
that `findPeerID` reports for the source address. -/
theorem long_ping_is_datagram (c : UDPConn) (now : Int) (pkt : Bytes) (src : UDPAddr)
    (hp : pkt.take 5 = pingPrefix) (hlen : 260 < pkt.length) :
    c.runPacketEvent now pkt src =
      PacketEvent.datagram ⟨c.findPeerID now (some src), pkt⟩ := by
  unfold UDPConn.runPacketEvent
  rw [if_neg, stunIs_ping _ hp]
  · rfl
  · omega

theorem long_ping_is_datagram_witness :
    (pingPrefix ++ List.replicate 300 7).take 5 = pingPrefix ∧
    260 < (pingPrefix ++ List.replicate 300 7).length ∧
    (ListenUDP [67]).runPacketEvent 5 (pingPrefix ++ List.replicate 300 7) ⟨[10, 0, 0, 1], 7000, ""⟩ =
      PacketEvent.datagram ⟨(ListenUDP [67]).findPeerID 5 (some ⟨[10, 0, 0, 1], 7000, ""⟩),
        pingPrefix ++ List.replicate 300 7⟩ :=
  ⟨take_pingFrame _, by rw [List.length_append, List.length_replicate, pingPrefix_length]; omega,
    long_ping_is_datagram (ListenUDP [67]) 5 (pingPrefix ++ List.replicate 300 7)
      ⟨[10, 0, 0, 1], 7000, ""⟩ (take_pingFrame _)
      (by rw [List.length_append, List.length_replicate, pingPrefix_length]; omega)⟩

/-! ## Facts about association lists -/

section MapFacts

variable {K V : Type} [DecidableEq K]

theorem mapGet_mapSet_self (m : List (K × V)) (k : K) (v : V) :
    mapGet (mapSet m k v) k = some v := by
  induction m with
  | nil => simp [mapSet, mapGet]
  | cons e r ih =>
    obtain ⟨k', v'⟩ := e
    by_cases h : k' = k
    · simp [mapSet, mapGet, h]
    · simp [mapSet, mapGet, h, ih]

theorem mapGet_mapSet_ne (m : List (K × V)) {k q : K} (v : V) (h : q ≠ k) :
    mapGet (mapSet m k v) q = mapGet m q := by
  induction m with
  | nil => simp [mapSet, mapGet, h.symm]
  | cons e r ih =>
    obtain ⟨k', v'⟩ := e
    by_cases hk : k' = k
    · subst hk
      simp [mapSet, mapGet, h.symm]
    · by_cases hq : k' = q
      · subst hq
        simp [mapSet, mapGet, h]
      · simp [mapSet, mapGet, hk, hq, ih]

theorem mapSet_mapSet (m : List (K × V)) (k : K) (v w : V) :
    mapSet (mapSet m k v) k w = mapSet m k w := by
  induction m with
  | nil => simp [mapSet]
  | cons e r ih =>
    obtain ⟨k', v'⟩ := e
    by_cases h : k' = k
    · simp [mapSet, h]
    · simp [mapSet, h, ih]

theorem mapSet_of_mapGet (m : List (K × V)) (k : K) (v : V) (h : mapGet m k = some v) :
    mapSet m k v = m := by
  induction m with
  | nil => simp [mapGet] at h
  | cons e r ih =>
    obtain ⟨k', v'⟩ := e
    by_cases hk : k' = k
    · subst hk
      simp [mapGet] at h
      simp [mapSet, h]
    · simp [mapGet, hk] at h
      simp [mapSet, hk, ih h]

theorem mapGet_eq_none_iff (m : List (K × V)) (k : K) :
    mapGet m k = none ↔ ∀ e ∈ m, e.1 ≠ k := by
  induction m with
  | nil => simp [mapGet]
  | cons e r ih =>
    obtain ⟨k', v'⟩ := e
    by_cases hk : k' = k
    · simp [mapGet, hk]
    · simp [mapGet, hk, ih]

end MapFacts

/-! ## Facts about addresses -/

theorem IPEqual_refl (ip : Bytes) : IPEqual ip ip = true := by
  simp [IPEqual]

theorem sameAddr_refl (a : UDPAddr) : sameAddr a a = true := by
  simp [sameAddr, IPEqual_refl]

/-! ## The table operations -/

theorem handlePeerEvent_keepalive (c : UDPConn) (now : Int) (e : PeerOP) :
    (c.handlePeerEvent now e).peerKeepaliveInterval = c.peerKeepaliveInterval := by
  unfold UDPConn.handlePeerEvent
  cases e.Op <;> dsimp only
  · cases mapGet c.peersMap e.PeerID <;> dsimp only <;> split <;> rfl
  · cases mapGet c.peersMap e.PeerID <;> rfl

/-- The table after `OP_PEER_DISCO` when the peer has no entry. -/
theorem disco_of_none (c : UDPConn) (now : Int) (p : PeerID) (a : UDPAddr)
    (h : mapGet c.peersMap p = none) :
    (c.handlePeerEvent now (discoOP p a)).peersMap =
      mapSet c.peersMap p ⟨[(a.String, ⟨a, 0⟩)], now⟩ := by
  simp [UDPConn.handlePeerEvent, discoOP, h, mapGet_mapSet_self, mapSet_mapSet, mapSet]

/-- The table after `OP_PEER_CONFIRM` when the peer has an entry. -/
theorem confirm_of_some (c : UDPConn) (now : Int) (p : PeerID) (a : UDPAddr) (ctx : PeerContext)
    (h : mapGet c.peersMap p = some ctx) :
    (c.handlePeerEvent now (confirmOP p a)).peersMap =
      mapSet c.peersMap p ⟨confirmStates now a ctx.States, ctx.CreateTime⟩ := by
  simp [UDPConn.handlePeerEvent, confirmOP, h]

/-- The table after `OP_PEER_CONFIRM` when the peer has no entry. -/
theorem confirm_of_none (c : UDPConn) (now : Int) (p : PeerID) (a : UDPAddr)
    (h : mapGet c.peersMap p = none) :
    c.handlePeerEvent now (confirmOP p a) = c := by
  simp [UDPConn.handlePeerEvent, confirmOP, h]

theorem healthcheck_peersMap (c : UDPConn) (now : Int) :
    (c.handlePeerEvent now healthcheckOP).peersMap = c.peersMap.filterMap (sweepPeer c now) := by
  simp [UDPConn.handlePeerEvent, healthcheckOP]


theorem keepaliveInRange_handlePeerEvent {c : UDPConn} (hk : c.keepaliveInRange) (now : Int)
    (e : PeerOP) : (c.handlePeerEvent now e).keepaliveInRange := by
  unfold UDPConn.keepaliveInRange at *
  rw [handlePeerEvent_keepalive]
  exact hk

/-- The sweep keeps a path that is not stale, and with it the peer. -/
theorem sweepPeer_keeps (c : UDPConn) (now : Int) (k : PeerID) (v : PeerContext)
    (s : AddrKey) (st : PeerState) (hs : (s, st) ∈ v.States) (hfresh : c.stale now st = false) :
    ∃ v', sweepPeer c now (k, v) = some (k, v') ∧ (s, st) ∈ v'.States := by
  unfold sweepPeer
  by_cases hold : c.threeKeepalive < Since now v.CreateTime
  · have hmem : (s, st) ∈ v.States.filter (fun s => !c.stale now s.2) := by
      rw [List.mem_filter]
      exact ⟨hs, by simp [hfresh]⟩
    have hne : (v.States.filter (fun s => !c.stale now s.2)).length ≠ 0 := by
      intro h0
      rw [List.length_eq_zero] at h0
      rw [h0] at hmem
      exact absurd hmem (List.not_mem_nil _)
    simp only [hold, if_true, hne, if_false]
    exact ⟨_, rfl, hmem⟩
  · have hne : v.States.length ≠ 0 := by
      intro h0
      rw [List.length_eq_zero] at h0
      rw [h0] at hs
      exact absurd hs (List.not_mem_nil _)
    simp only [hold, if_false, hne]
    exact ⟨_, rfl, hs⟩

/-- C3. For every table state and every time `now`, the sweep
(`OP_PEER_HEALTHCHECK`) keeps every path whose `LastActiveTime` satisfies
`now - LastActiveTime ≤ 2*keepalive`, and keeps the peer entry that owns it. -/
theorem sweep_keeps_recent_path (c : UDPConn) (now : Int) (hk : c.keepaliveInRange)
    (k : PeerID) (v : PeerContext) (s : AddrKey) (st : PeerState)
    (hv : (k, v) ∈ c.peersMap) (hs : (s, st) ∈ v.States)
    (hrecent : now - st.LastActiveTime ≤ 2 * c.peerKeepaliveInterval) :
    ∃ v', (k, v') ∈ (c.handlePeerEvent now healthcheckOP).peersMap ∧ (s, st) ∈ v'.States := by
  have hfresh : c.stale now st = false := by
    rw [Bool.eq_false_iff]
    intro h
    rw [stale_iff hk] at h
    omega
  obtain ⟨v', hsw, hmem⟩ := sweepPeer_keeps c now k v s st hs hfresh
  refine ⟨v', ?_, hmem⟩
  rw [healthcheck_peersMap, List.mem_filterMap]
  exact ⟨(k, v), hv, hsw⟩

theorem sweep_keeps_recent_path_witness :
    (ListenUDP [67]).keepaliveInRange ∧
    ∃ v', (([65] : PeerID), v') ∈
        ((((ListenUDP [67]).handlePeerEvent 100 (discoOP [65] ⟨[10, 0, 0, 1], 7000, ""⟩)).handlePeerEvent
          200 (confirmOP [65] ⟨[10, 0, 0, 1], 7000, ""⟩)).handlePeerEvent
          (200 + 20 * Second) healthcheckOP).peersMap ∧
      ((UDPAddr.String ⟨[10, 0, 0, 1], 7000, ""⟩,
        (⟨⟨[10, 0, 0, 1], 7000, ""⟩, 200⟩ : PeerState)) ∈ v'.States) :=
  ⟨keepaliveInRange_ListenUDP _,
    sweep_keeps_recent_path
      (((ListenUDP [67]).handlePeerEvent 100 (discoOP [65] ⟨[10, 0, 0, 1], 7000, ""⟩)).handlePeerEvent
          200 (confirmOP [65] ⟨[10, 0, 0, 1], 7000, ""⟩))
      (200 + 20 * Second)
      (keepaliveInRange_handlePeerEvent (keepaliveInRange_handlePeerEvent
        (keepaliveInRange_ListenUDP _) _ _) _ _)
      [65] ⟨[(UDPAddr.String ⟨[10, 0, 0, 1], 7000, ""⟩, ⟨⟨[10, 0, 0, 1], 7000, ""⟩, 200⟩)], 100⟩
      (UDPAddr.String ⟨[10, 0, 0, 1], 7000, ""⟩) ⟨⟨[10, 0, 0, 1], 7000, ""⟩, 200⟩
      (by decide) (by decide) (by decide)⟩

/-! ## The lookup `findPeerID` -/

theorem findInStates_eq_some (c : UDPConn) (now : Int) (a : UDPAddr) (k r : PeerID)
    (states : List (AddrKey × PeerState)) (h : findInStates c now a k states = some r) :
    ∃ e ∈ states, sameAddr e.2.Addr a = true ∧
      ((c.stale now e.2 = true ∧ r = []) ∨ (c.stale now e.2 = false ∧ r = k)) := by
  induction states with
  | nil => simp [findInStates] at h
  | cons e rest ih =>
    obtain ⟨s, state⟩ := e
    unfold findInStates at h
    by_cases hm : sameAddr state.Addr a = true
    · by_cases hst : c.stale now state = true
      · simp [hm, hst] at h
        exact ⟨(s, state), List.mem_cons_self _ _, hm, Or.inl ⟨hst, h⟩⟩
      · simp [hm, hst] at h
        exact ⟨(s, state), List.mem_cons_self _ _, hm, Or.inr ⟨by simpa using hst, h.symm⟩⟩
    · simp [hm] at h
      obtain ⟨e, he, hp⟩ := ih h
      exact ⟨e, List.mem_cons_of_mem _ he, hp⟩

theorem findInPeers_ne_nil (c : UDPConn) (now : Int) (a : UDPAddr) (p : PeerID)
    (peers : List (PeerID × PeerContext)) (h : findInPeers c now a peers = p) (hp : p ≠ []) :
    ∃ ctx, (p, ctx) ∈ peers ∧ ∃ e ∈ ctx.States, sameAddr e.2.Addr a = true ∧
      c.stale now e.2 = false := by
  induction peers with
  | nil => simp [findInPeers] at h; exact absurd h hp
  | cons x rest ih =>
    obtain ⟨k, v⟩ := x
    unfold findInPeers at h
    cases hf : findInStates c now a k v.States with
    | none =>
      simp [hf] at h
      obtain ⟨ctx, hc, he⟩ := ih h
      exact ⟨ctx, List.mem_cons_of_mem _ hc, he⟩
    | some r =>
      simp [hf] at h
      obtain ⟨e, he, hm, hcase⟩ := findInStates_eq_some c now a k r v.States hf
      rcases hcase with ⟨_, hr⟩ | ⟨hst, hr⟩
      · rw [hr] at h
        exact absurd h.symm hp
      · rw [hr] at h
        subst h
        exact ⟨v, List.mem_cons_self _ _, e, he, hm, hst⟩

/-- C4. For every table state, address and time `now`: when `findPeerID`
returns a non-empty peer id `p`, the peer `p` has a path whose IP and port
equal the address's and whose `LastActiveTime` is within `2*keepalive` of
`now`; this path is not a never-confirmed one as soon as the clock is more
than `2*keepalive` past the zero time. For a nil address the result is
empty. -/
theorem findPeerID_sound (c : UDPConn) (now : Int) (hk : c.keepaliveInRange)
    (addr : Option UDPAddr) (p : PeerID) (h : c.findPeerID now addr = p) (hp : p ≠ []) :
    c.findPeerID now none = [] ∧
    ∃ a ctx key st, addr = some a ∧ (p, ctx) ∈ c.peersMap ∧ (key, st) ∈ ctx.States ∧
      sameAddr st.Addr a = true ∧
      now - st.LastActiveTime ≤ 2 * c.peerKeepaliveInterval ∧
      (2 * c.peerKeepaliveInterval < now → Time.IsZero st.LastActiveTime = false) := by
  refine ⟨rfl, ?_⟩
  cases addr with
  | none => exact absurd h.symm hp
  | some a =>
    obtain ⟨ctx, hc, e, he, hm, hst⟩ := findInPeers_ne_nil c now a p c.peersMap h hp
    have hle : now - e.2.LastActiveTime ≤ 2 * c.peerKeepaliveInterval := by
      by_contra hlt
      have : c.stale now e.2 = true := (stale_iff hk now e.2).2 (by omega)
      rw [hst] at this
      exact Bool.noConfusion this
    refine ⟨a, ctx, e.1, e.2, rfl, hc, he, hm, hle, ?_⟩
    intro hnow
    unfold Time.IsZero
    rw [decide_eq_false_iff_not]
    intro h0
    rw [h0] at hle
    omega

/-- The table in which peer `[65]` holds the path `10.0.0.1:7000`, observed
at 100 and confirmed at 200. -/
theorem findPeerID_sound_witness :
    (((ListenUDP [67]).handlePeerEvent 100 (discoOP [65] ⟨[10, 0, 0, 1], 7000, ""⟩)).handlePeerEvent
        200 (confirmOP [65] ⟨[10, 0, 0, 1], 7000, ""⟩)).findPeerID 300 none = [] ∧
    ∃ a ctx key st, some (⟨[10, 0, 0, 1], 7000, ""⟩ : UDPAddr) = some a ∧
      (([65] : PeerID), ctx) ∈
        (((ListenUDP [67]).handlePeerEvent 100 (discoOP [65] ⟨[10, 0, 0, 1], 7000, ""⟩)).handlePeerEvent
          200 (confirmOP [65] ⟨[10, 0, 0, 1], 7000, ""⟩)).peersMap ∧
      (key, st) ∈ ctx.States ∧ sameAddr st.Addr a = true ∧
      300 - st.LastActiveTime ≤
        2 * (((ListenUDP [67]).handlePeerEvent 100 (discoOP [65] ⟨[10, 0, 0, 1], 7000, ""⟩)).handlePeerEvent
          200 (confirmOP [65] ⟨[10, 0, 0, 1], 7000, ""⟩)).peerKeepaliveInterval ∧
      (2 * (((ListenUDP [67]).handlePeerEvent 100 (discoOP [65] ⟨[10, 0, 0, 1], 7000, ""⟩)).handlePeerEvent
          200 (confirmOP [65] ⟨[10, 0, 0, 1], 7000, ""⟩)).peerKeepaliveInterval < 300 →
        Time.IsZero st.LastActiveTime = false) :=
  findPeerID_sound
    (((ListenUDP [67]).handlePeerEvent 100 (discoOP [65] ⟨[10, 0, 0, 1], 7000, ""⟩)).handlePeerEvent
        200 (confirmOP [65] ⟨[10, 0, 0, 1], 7000, ""⟩))
    300
    (keepaliveInRange_handlePeerEvent (keepaliveInRange_handlePeerEvent
        (keepaliveInRange_ListenUDP _) _ _) _ _)
    (some ⟨[10, 0, 0, 1], 7000, ""⟩) [65] (by decide) (by decide)


/-! ## Observe, confirm, sweep -/

/-- The connection after `OP_PEER_DISCO` when the peer has an entry. -/
theorem disco_eq_of_some (c : UDPConn) (now : Int) (p : PeerID) (a : UDPAddr) (ctx : PeerContext)
    (h : mapGet c.peersMap p = some ctx) :
    c.handlePeerEvent now (discoOP p a) =
      { c with peersMap := mapSet c.peersMap p ⟨mapSet ctx.States a.String ⟨a, 0⟩, ctx.CreateTime⟩ } := by
  simp [UDPConn.handlePeerEvent, discoOP, h]

/-- C5. Sweep scenario S4: starting from an empty table, `observe(p,a1)` at
time `t0` puts into the table the peer `p` with the never-confirmed path `a1`,
and `confirm(p,a1)` at time `t1 ≥ t0` within the first keepalive gives that
path the `LastActiveTime` `t1`, so that the table holds one peer with one path.
With no further operation, a sweep run at any time later than
`t0 + 3*keepalive` is later than `t1 + 2*keepalive` and removes the path and
the peer: the table has zero peers. -/
theorem sweep_scenario_S4 (c : UDPConn) (hk : c.keepaliveInRange) (hempty : c.peersMap = [])
    (p : PeerID) (a1 : UDPAddr) (t0 t1 now : Int) (_h01 : t0 ≤ t1)
    (h1 : t1 ≤ t0 + c.peerKeepaliveInterval) (hnow : t0 + 3 * c.peerKeepaliveInterval < now) :
    t1 + 2 * c.peerKeepaliveInterval < now ∧
    (c.handlePeerEvent t0 (discoOP p a1)).peersMap =
      [(p, ⟨[(a1.String, ⟨a1, 0⟩)], t0⟩)] ∧
    ((c.handlePeerEvent t0 (discoOP p a1)).handlePeerEvent t1 (confirmOP p a1)).peersMap =
      [(p, ⟨[(a1.String, ⟨a1, t1⟩)], t0⟩)] ∧
    hasPath ((c.handlePeerEvent t0 (discoOP p a1)).handlePeerEvent t1 (confirmOP p a1)).peersMap
      p a1.String ⟨a1, t1⟩ ∧
    (((c.handlePeerEvent t0 (discoOP p a1)).handlePeerEvent t1 (confirmOP p a1)).handlePeerEvent
      now healthcheckOP).peersMap = [] ∧
    (∀ s st, ¬ hasPath
      ((((c.handlePeerEvent t0 (discoOP p a1)).handlePeerEvent t1 (confirmOP p a1)).handlePeerEvent
        now healthcheckOP).peersMap) p s st) ∧
    ((((c.handlePeerEvent t0 (discoOP p a1)).handlePeerEvent t1 (confirmOP p a1)).handlePeerEvent
      now healthcheckOP).peersMap).length = 0 := by
  have hnone : mapGet c.peersMap p = none := by rw [hempty]; rfl
  have hd : (c.handlePeerEvent t0 (discoOP p a1)).peersMap = [(p, ⟨[(a1.String, ⟨a1, 0⟩)], t0⟩)] := by
    rw [disco_of_none c t0 p a1 hnone, hempty]; rfl
  have hget : mapGet (c.handlePeerEvent t0 (discoOP p a1)).peersMap p =
      some ⟨[(a1.String, ⟨a1, 0⟩)], t0⟩ := by
    rw [hd]; simp [mapGet]
  have hc : ((c.handlePeerEvent t0 (discoOP p a1)).handlePeerEvent t1 (confirmOP p a1)).peersMap =
      [(p, ⟨[(a1.String, ⟨a1, t1⟩)], t0⟩)] := by
    rw [confirm_of_some _ t1 p a1 _ hget, hd]
    simp [mapSet, confirmStates, sameAddr_refl]
  have hk2 := keepaliveInRange_handlePeerEvent (keepaliveInRange_handlePeerEvent hk t0 (discoOP p a1))
    t1 (confirmOP p a1)
  have hka : ((c.handlePeerEvent t0 (discoOP p a1)).handlePeerEvent t1
      (confirmOP p a1)).peerKeepaliveInterval = c.peerKeepaliveInterval := by
    rw [handlePeerEvent_keepalive, handlePeerEvent_keepalive]
  have hold : ((c.handlePeerEvent t0 (discoOP p a1)).handlePeerEvent t1 (confirmOP p a1)).threeKeepalive
      < Since now t0 := by
    rw [old_iff hk2, hka]; omega
  have hstale : ((c.handlePeerEvent t0 (discoOP p a1)).handlePeerEvent t1 (confirmOP p a1)).stale now
      ⟨a1, t1⟩ = true := by
    rw [stale_iff hk2, hka]
    show 2 * c.peerKeepaliveInterval < now - t1
    omega
  have hsweep : (((c.handlePeerEvent t0 (discoOP p a1)).handlePeerEvent t1
      (confirmOP p a1)).handlePeerEvent now healthcheckOP).peersMap = [] := by
    rw [healthcheck_peersMap, hc]
    simp [sweepPeer, hold, hstale]
  refine ⟨by omega, hd, hc, ?_, hsweep, ?_, ?_⟩
  · rw [hc]
    exact ⟨_, List.mem_singleton_self _, List.mem_singleton_self _⟩
  · intro s st hpath
    rw [hsweep] at hpath
    obtain ⟨v, hv, _⟩ := hpath
    exact absurd hv (List.not_mem_nil _)
  · rw [hsweep]
    rfl

theorem sweep_scenario_S4_witness :
    (ListenUDP [67]).keepaliveInRange ∧ (ListenUDP [67]).peersMap = [] ∧ (100 : Int) ≤ 100 + 5 * Second ∧
    (100 + 5 * Second ≤ 100 + (ListenUDP [67]).peerKeepaliveInterval) ∧
    (100 + 3 * (ListenUDP [67]).peerKeepaliveInterval < 101 + 30 * Second) ∧
    ((((ListenUDP [67]).handlePeerEvent 100 (discoOP [65] ⟨[10, 0, 0, 1], 7000, ""⟩)).handlePeerEvent
      (100 + 5 * Second) (confirmOP [65] ⟨[10, 0, 0, 1], 7000, ""⟩)).peersMap =
      [([65], ⟨[(UDPAddr.String ⟨[10, 0, 0, 1], 7000, ""⟩,
        ⟨⟨[10, 0, 0, 1], 7000, ""⟩, 100 + 5 * Second⟩)], 100⟩)]) ∧
    ((((ListenUDP [67]).handlePeerEvent 100 (discoOP [65] ⟨[10, 0, 0, 1], 7000, ""⟩)).handlePeerEvent
      (100 + 5 * Second) (confirmOP [65] ⟨[10, 0, 0, 1], 7000, ""⟩)).handlePeerEvent
      (101 + 30 * Second) healthcheckOP).peersMap = [] :=
  ⟨keepaliveInRange_ListenUDP _, rfl, by decide, by decide, by decide,
    (sweep_scenario_S4 (ListenUDP [67]) (keepaliveInRange_ListenUDP _) rfl [65]
      ⟨[10, 0, 0, 1], 7000, ""⟩ 100 (100 + 5 * Second) (101 + 30 * Second)
      (by decide) (by decide) (by decide)).2.2.1,
    (sweep_scenario_S4 (ListenUDP [67]) (keepaliveInRange_ListenUDP _) rfl [65]
      ⟨[10, 0, 0, 1], 7000, ""⟩ 100 (100 + 5 * Second) (101 + 30 * Second)
      (by decide) (by decide) (by decide)).2.2.2.2.1⟩

/-- The boundary of scenario S4: a confirm two keepalives after the observe
keeps the path fresh at a sweep run just after `t0 + 3*keepalive`; the peer
stays in the table. -/
theorem sweep_after_late_confirm_keeps_peer :
    (((((ListenUDP [67]).handlePeerEvent 100 (discoOP [65] ⟨[10, 0, 0, 1], 7000, ""⟩)).handlePeerEvent
      (100 + 20 * Second) (confirmOP [65] ⟨[10, 0, 0, 1], 7000, ""⟩)).handlePeerEvent
      (101 + 30 * Second) healthcheckOP).peersMap).length = 1 := by
  decide

/-- C6 (counterexample). Peer `[65]` holds the path `10.0.0.1:7000`, observed
at 100 and confirmed at 200, so its `LastActiveTime` is 200. Observing the same
peer and address again changes the table: the path's `LastActiveTime` is 0. -/
theorem observe_again_resets_confirmed_path :
    (mapGet (((ListenUDP [67]).handlePeerEvent 100 (discoOP [65] ⟨[10, 0, 0, 1], 7000, ""⟩)).handlePeerEvent
        200 (confirmOP [65] ⟨[10, 0, 0, 1], 7000, ""⟩)).peersMap [65] =
      some ⟨[(UDPAddr.String ⟨[10, 0, 0, 1], 7000, ""⟩, ⟨⟨[10, 0, 0, 1], 7000, ""⟩, 200⟩)], 100⟩) ∧
    (mapGet ((((ListenUDP [67]).handlePeerEvent 100 (discoOP [65] ⟨[10, 0, 0, 1], 7000, ""⟩)).handlePeerEvent
        200 (confirmOP [65] ⟨[10, 0, 0, 1], 7000, ""⟩)).handlePeerEvent
        300 (discoOP [65] ⟨[10, 0, 0, 1], 7000, ""⟩)).peersMap [65] =
      some ⟨[(UDPAddr.String ⟨[10, 0, 0, 1], 7000, ""⟩, ⟨⟨[10, 0, 0, 1], 7000, ""⟩, 0⟩)], 100⟩) ∧
    ((((ListenUDP [67]).handlePeerEvent 100 (discoOP [65] ⟨[10, 0, 0, 1], 7000, ""⟩)).handlePeerEvent
        200 (confirmOP [65] ⟨[10, 0, 0, 1], 7000, ""⟩)).handlePeerEvent
        300 (discoOP [65] ⟨[10, 0, 0, 1], 7000, ""⟩) ≠
      ((ListenUDP [67]).handlePeerEvent 100 (discoOP [65] ⟨[10, 0, 0, 1], 7000, ""⟩)).handlePeerEvent
        200 (confirmOP [65] ⟨[10, 0, 0, 1], 7000, ""⟩)) := by
  decide

/-- C6 (amended). For every table state in which peer `p` already holds a path
under the key of address `a`, applying `observe(p,a)` (`OP_PEER_DISCO`) again
replaces that path by a never-confirmed one: its `LastActiveTime` is 0 whatever
it was before. The peer's `CreateTime`, its other paths and the other peers are
unchanged; the table is unchanged exactly when the path was already the
never-confirmed path of `a`; and a further `observe(p,a)` changes nothing
(the operation is idempotent). -/
theorem observe_existing_path (c : UDPConn) (now : Int) (p : PeerID) (a : UDPAddr)
    (ctx : PeerContext) (st : PeerState)
    (hp : mapGet c.peersMap p = some ctx) (hs : mapGet ctx.States a.String = some st) :
    (∃ ctx', mapGet (c.handlePeerEvent now (discoOP p a)).peersMap p = some ctx' ∧
      ctx'.CreateTime = ctx.CreateTime ∧
      mapGet ctx'.States a.String = some ⟨a, 0⟩ ∧
      ∀ s, s ≠ a.String → mapGet ctx'.States s = mapGet ctx.States s) ∧
    (∀ q, q ≠ p → mapGet (c.handlePeerEvent now (discoOP p a)).peersMap q = mapGet c.peersMap q) ∧
    (c.handlePeerEvent now (discoOP p a) = c ↔ st = ⟨a, 0⟩) ∧
    (∀ now', (c.handlePeerEvent now (discoOP p a)).handlePeerEvent now' (discoOP p a) =
      c.handlePeerEvent now (discoOP p a)) := by
  have heq := disco_eq_of_some c now p a ctx hp
  have hget : mapGet (c.handlePeerEvent now (discoOP p a)).peersMap p =
      some ⟨mapSet ctx.States a.String ⟨a, 0⟩, ctx.CreateTime⟩ := by
    rw [heq]; exact mapGet_mapSet_self _ _ _
  refine ⟨⟨_, hget, rfl, mapGet_mapSet_self _ _ _, fun s hs' => mapGet_mapSet_ne _ _ hs'⟩, ?_, ?_, ?_⟩
  · intro q hq
    rw [heq]
    exact mapGet_mapSet_ne _ _ hq
  · constructor
    · intro h
      rw [h, hp] at hget
      injection hget with hget
      have h2 : mapGet ctx.States a.String = some ⟨a, 0⟩ := by
        rw [hget]; exact mapGet_mapSet_self _ _ _
      rw [hs] at h2
      injection h2
    · intro h
      subst h
      rw [heq, mapSet_of_mapGet _ _ _ hs, mapSet_of_mapGet _ _ _ hp]
  · intro now'
    rw [disco_eq_of_some _ now' p a _ hget, heq]
    simp [mapSet_mapSet]

theorem observe_existing_path_witness :
    (∃ ctx', mapGet ((((ListenUDP [67]).handlePeerEvent 100 (discoOP [65] ⟨[10, 0, 0, 1], 7000, ""⟩)).handlePeerEvent
          200 (confirmOP [65] ⟨[10, 0, 0, 1], 7000, ""⟩)).handlePeerEvent 300
          (discoOP [65] ⟨[10, 0, 0, 1], 7000, ""⟩)).peersMap [65] = some ctx' ∧
      ctx'.CreateTime = 100 ∧
      mapGet ctx'.States (UDPAddr.String ⟨[10, 0, 0, 1], 7000, ""⟩) = some ⟨⟨[10, 0, 0, 1], 7000, ""⟩, 0⟩) :=
  (observe_existing_path
    (((ListenUDP [67]).handlePeerEvent 100 (discoOP [65] ⟨[10, 0, 0, 1], 7000, ""⟩)).handlePeerEvent
          200 (confirmOP [65] ⟨[10, 0, 0, 1], 7000, ""⟩))
    300 [65] ⟨[10, 0, 0, 1], 7000, ""⟩
    ⟨[(UDPAddr.String ⟨[10, 0, 0, 1], 7000, ""⟩, ⟨⟨[10, 0, 0, 1], 7000, ""⟩, 200⟩)], 100⟩
    ⟨⟨[10, 0, 0, 1], 7000, ""⟩, 200⟩ (by decide) (by decide)).1.imp
    (fun _ h => ⟨h.1, h.2.1, h.2.2.1⟩)

/-- C7 (counterexample). The table built by `ListenUDP` has no entry for peer
`[65]`; after the ping frame of `[65]`, received from `10.0.0.1:7000`, has gone
through the packet reader and the peer-op handler, the table still has no
entry for `[65]`. -/
theorem ping_from_unknown_peer_creates_no_entry :
    mapGet (ListenUDP [67]).peersMap [65] = none ∧
    (ListenUDP [67]).runPacketEvent 100 (ListenUDP [65]).pingFrame ⟨[10, 0, 0, 1], 7000, ""⟩ =
      PacketEvent.peerOP (confirmOP [65] ⟨[10, 0, 0, 1], 7000, ""⟩) ∧
    mapGet ((ListenUDP [67]).deliverPacket 100 (ListenUDP [65]).pingFrame
      ⟨[10, 0, 0, 1], 7000, ""⟩).peersMap [65] = none := by
  decide

/-- C7 (amended). For every table state that has no entry for peer `p` and
every ping frame carrying `p` (up to 255 bytes) received from source address
`a`, the packet reader emits `OP_PEER_CONFIRM` for `p` and `a`, and the peer-op
handler leaves the connection state as it was: the table still has no entry
for `p`. -/
theorem ping_from_unknown_peer_leaves_table (c : UDPConn) (now : Int) (p : PeerID) (a : UDPAddr)
    (hnone : mapGet c.peersMap p = none) (hlen : p.length ≤ 255) :
    c.runPacketEvent now (pingPrefix ++ p) a = PacketEvent.peerOP (confirmOP p a) ∧
    c.deliverPacket now (pingPrefix ++ p) a = c ∧
    mapGet (c.deliverPacket now (pingPrefix ++ p) a).peersMap p = none := by
  have hlen5 : (pingPrefix ++ p).length = 5 + p.length := by
    rw [List.length_append, pingPrefix_length]
  have hev : c.runPacketEvent now (pingPrefix ++ p) a = PacketEvent.peerOP (confirmOP p a) := by
    have h := runPacketEvent_of_ping c now (pingPrefix ++ p) a
      ⟨take_pingFrame p, by omega, by omega⟩
    rw [drop_pingFrame] at h
    exact h
  have hd : c.deliverPacket now (pingPrefix ++ p) a = c := by
    unfold UDPConn.deliverPacket
    rw [hev]
    exact confirm_of_none c now p a hnone
  exact ⟨hev, hd, by rw [hd]; exact hnone⟩

theorem ping_from_unknown_peer_leaves_table_witness :
    mapGet (ListenUDP [67]).peersMap [65, 66] = none ∧ ([65, 66] : PeerID).length ≤ 255 ∧
    (ListenUDP [67]).deliverPacket 100 (pingPrefix ++ [65, 66]) ⟨[10, 0, 0, 1], 7000, ""⟩ =
      ListenUDP [67] :=
  ⟨by decide, by decide,
    (ping_from_unknown_peer_leaves_table (ListenUDP [67]) 100 [65, 66] ⟨[10, 0, 0, 1], 7000, ""⟩
      (by decide) (by decide)).2.1⟩


/-! ## STUN session accounting -/

theorem mapSet_of_none {K V : Type} [DecidableEq K] (m : List (K × V)) (k : K) (v : V)
    (h : mapGet m k = none) : mapSet m k v = m ++ [(k, v)] := by
  induction m with
  | nil => rfl
  | cons e r ih =>
    obtain ⟨k', v'⟩ := e
    by_cases hk : k' = k
    · simp [mapGet, hk] at h
    · simp [mapGet, hk] at h
      simp [mapSet, hk, ih h]

theorem mapGet_mapDelete_self {K V : Type} [DecidableEq K] (m : List (K × V)) (k : K) :
    mapGet (mapDelete m k) k = none := by
  rw [mapGet_eq_none_iff]
  intro e he
  unfold mapDelete at he
  rw [List.mem_filter] at he
  simpa using he.2

theorem mapGet_mapDelete_ne {K V : Type} [DecidableEq K] (m : List (K × V)) {k q : K}
    (h : q ≠ k) : mapGet (mapDelete m k) q = mapGet m q := by
  induction m with
  | nil => rfl
  | cons e r ih =>
    obtain ⟨k', v'⟩ := e
    unfold mapDelete at ih ⊢
    by_cases hk : k' = k
    · subst hk
      simp [List.filter_cons, mapGet, h.symm, ih]
    · by_cases hq : k' = q
      · subst hq
        simp [List.filter_cons, mapGet, hk]
      · simp [List.filter_cons, mapGet, hk, hq, ih]

/-- C10 (counterexample). A session is stored under the transaction id
`1, 2, …, 12`. The 20-byte response below is a STUN message (a Binding Error
Response, type `0x01 0x11`) whose transaction id, bytes 8 to 19, is that of the
stored session; handling it removes nothing: the session is still in the map
and no event is sent. -/
theorem stun_error_response_keeps_session :
    stunIs ([0x01, 0x11, 0, 0, 0x21, 0x12, 0xa4, 0x42] ++ [1, 2, 3, 4, 5, 6, 7, 8, 9, 10, 11, 12]) = true ∧
    (([0x01, 0x11, 0, 0, 0x21, 0x12, 0xa4, 0x42] ++ [1, 2, 3, 4, 5, 6, 7, 8, 9, 10, 11, 12] : Bytes).drop 8).take 12 =
      [1, 2, 3, 4, 5, 6, 7, 8, 9, 10, 11, 12] ∧
    mapGet ((ListenUDP [67]).requestSTUN exampleSTUNEnv [1, 2, 3, 4, 5, 6, 7, 8, 9, 10, 11, 12] 100
      [65] []).1.stunSessions [1, 2, 3, 4, 5, 6, 7, 8, 9, 10, 11, 12] = some ⟨[65], 100⟩ ∧
    (((ListenUDP [67]).requestSTUN exampleSTUNEnv [1, 2, 3, 4, 5, 6, 7, 8, 9, 10, 11, 12] 100
      [65] []).1.handleSTUNResponse exampleSTUNEnv
        ([0x01, 0x11, 0, 0, 0x21, 0x12, 0xa4, 0x42] ++ [1, 2, 3, 4, 5, 6, 7, 8, 9, 10, 11, 12])) =
      (((ListenUDP [67]).requestSTUN exampleSTUNEnv [1, 2, 3, 4, 5, 6, 7, 8, 9, 10, 11, 12] 100
        [65] []).1, none) := by
  decide

/-- A Binding Success response that is only a header carries no mapped
address, and one whose announced attribute length (12) is more than the bytes
that follow the header (8) is cut short: `stun.ParseResponse` refuses both as
malformed, and handling them leaves a session stored under their transaction id
in the map. -/
theorem stun_malformed_response_keeps_session :
    ParseResponse
      ([0x01, 0x01, 0, 0, 0x21, 0x12, 0xa4, 0x42] ++ [1, 2, 3, 4, 5, 6, 7, 8, 9, 10, 11, 12]) =
      .error .ErrMalformedAttrs ∧
    ParseResponse
      ([0x01, 0x01, 0x00, 0x0c, 0x21, 0x12, 0xa4, 0x42] ++ [1, 2, 3, 4, 5, 6, 7, 8, 9, 10, 11, 12] ++
        [0x00, 0x20, 0x00, 0x08, 0x00, 0x01, 0x2e, 0xb2]) = .error .ErrMalformedAttrs ∧
    (((ListenUDP [67]).requestSTUN exampleSTUNEnv [1, 2, 3, 4, 5, 6, 7, 8, 9, 10, 11, 12] 100
      [65] []).1.handleSTUNResponse exampleSTUNEnv
        ([0x01, 0x01, 0, 0, 0x21, 0x12, 0xa4, 0x42] ++ [1, 2, 3, 4, 5, 6, 7, 8, 9, 10, 11, 12])) =
      (((ListenUDP [67]).requestSTUN exampleSTUNEnv [1, 2, 3, 4, 5, 6, 7, 8, 9, 10, 11, 12] 100
        [65] []).1, none) ∧
    (((ListenUDP [67]).requestSTUN exampleSTUNEnv [1, 2, 3, 4, 5, 6, 7, 8, 9, 10, 11, 12] 100
      [65] []).1.handleSTUNResponse exampleSTUNEnv
        ([0x01, 0x01, 0x00, 0x0c, 0x21, 0x12, 0xa4, 0x42] ++
          [1, 2, 3, 4, 5, 6, 7, 8, 9, 10, 11, 12] ++
          [0x00, 0x20, 0x00, 0x08, 0x00, 0x01, 0x2e, 0xb2])) =
      (((ListenUDP [67]).requestSTUN exampleSTUNEnv [1, 2, 3, 4, 5, 6, 7, 8, 9, 10, 11, 12] 100
        [65] []).1, none) :=
  ⟨by rfl, by rfl, by decide, by decide⟩

/-- The walk through the attributes does not depend on the number of turns
allowed, once it is at least the number of bytes: `foreachAttr` is total. -/
theorem foreachAttrLoop_fuel {σ : Type} (fn : Nat → Bytes → σ → Except STUNError σ) :
    ∀ (f1 f2 : Nat) (b : Bytes) (st : σ), b.length ≤ f1 → b.length ≤ f2 →
      foreachAttrLoop fn f1 b st = foreachAttrLoop fn f2 b st := by
  intro f1
  induction f1 with
  | zero =>
    intro f2 b st h1 _
    have hb : b.length = 0 := by omega
    cases f2 <;> simp [foreachAttrLoop, hb]
  | succ f1 ih =>
    intro f2 b st h1 h2
    cases f2 with
    | zero =>
      have hb : b.length = 0 := by omega
      simp [foreachAttrLoop, hb]
    | succ f2 =>
      unfold foreachAttrLoop
      by_cases h0 : b.length = 0
      · simp [h0]
      · by_cases h4 : b.length < 4
        · simp [h0, h4]
        · simp only [h0, h4, if_false]
          split
          · rfl
          · cases fn (beUint16 b) (List.take (beUint16 (List.drop 2 b)) (List.drop 4 b)) st with
            | error e => rfl
            | ok st2 =>
              apply ih
              · simp only [List.length_drop]; omega
              · simp only [List.length_drop]; omega

theorem foreachAttr_fuel {σ : Type} (fn : Nat → Bytes → σ → Except STUNError σ) (b : Bytes)
    (st : σ) (fuel : Nat) (h : b.length ≤ fuel) :
    foreachAttrLoop fn fuel b st = foreachAttr fn b st :=
  foreachAttrLoop_fuel fn fuel b.length b st h (Nat.le_refl _)

/-- What a response that `stun.ParseResponse` accepts looks like. -/
theorem ParseResponse_ok (b t : Bytes) (s : AddrPort) (h : ParseResponse b = .ok (t, s)) :
    stunIs b = true ∧ t = (b.drop 8).take 12 ∧ b.get? 0 = some 0x01 ∧ b.get? 1 = some 0x01 ∧
      beUint16 (b.drop 2) ≤ (b.drop stunHeaderLen).length ∧ s.IsValid = true := by
  unfold ParseResponse at h
  by_cases h1 : stunIs b = true
  · simp only [h1, Bool.not_true, Bool.false_eq_true, if_false] at h
    by_cases h2 : b.get? 0 ≠ some 0x01 ∨ b.get? 1 ≠ some 0x01
    · rw [if_pos h2] at h
      cases h
    · rw [if_neg h2] at h
      have h2a : b.get? 0 = some 0x01 := by
        by_contra hc; exact h2 (Or.inl hc)
      have h2b : b.get? 1 = some 0x01 := by
        by_contra hc; exact h2 (Or.inr hc)
      by_cases h3 : beUint16 (b.drop 2) > (b.drop stunHeaderLen).length
      · simp only [h3, if_true] at h
        cases h
      · simp only [h3, if_false] at h
        refine ⟨h1, ?_, h2a, h2b, by omega, ?_⟩
        · split at h
          · cases h
          · split at h
            · injection h with h; injection h with h _; exact h.symm
            · split at h
              · injection h with h; injection h with h _; exact h.symm
              · cases h
        · split at h
          · cases h
          · rename_i addr fallbackAddr _
            split at h
            · rename_i hv
              injection h with h; injection h with _ h; rw [← h]; exact hv
            · split at h
              · rename_i hv
                injection h with h; injection h with _ h; rw [← h]; exact hv
              · cases h
  · simp [h1] at h

/-- C10 (amended). STUN session accounting: each `requestSTUN` call sets
exactly one session, keyed by its transaction id, however many STUN servers are
given; when the id is fresh the session map grows by that one entry. Handling
a STUN response that `stun.ParseResponse` accepts (a Binding Success response
whose attributes fit the announced length and give a mapped address), whose
transaction id, bytes 8 to 19, matches a stored session and whose address
resolves, sends the candidate event for the session's peer, removes exactly
that session and leaves every other session in place. A response that does not
parse (such as an error response, or a success response without a mapped
address), whose id is unknown, or whose address does not resolve, leaves the
session map as it is. -/
theorem stun_session_accounting (c : UDPConn) (env : STUNEnv) (txID : Bytes) (now : Int)
    (peerID : PeerID) (stunServers : List Bytes) (hfresh : mapGet c.stunSessions txID = none)
    (c2 : UDPConn) (stunResp txid : Bytes) (saddr : AddrPort) (tx : STUNSession) (addr : UDPAddr)
    (hparse : ParseResponse stunResp = .ok (txid, saddr))
    (hget : mapGet c2.stunSessions txid = some tx)
    (hres : env.resolveAddrPort saddr = some addr) :
    ((c.requestSTUN env txID now peerID stunServers).1.stunSessions =
        c.stunSessions ++ [(txID, ⟨peerID, now⟩)] ∧
      (c.requestSTUN env txID now peerID stunServers).1.stunSessions.length =
        c.stunSessions.length + 1 ∧
      (c.requestSTUN env txID now peerID stunServers).1.peersMap = c.peersMap) ∧
    (txid = (stunResp.drop 8).take 12 ∧
      (c2.handleSTUNResponse env stunResp).2 = some ⟨tx.PeerID, addr⟩ ∧
      (c2.handleSTUNResponse env stunResp).1.stunSessions = mapDelete c2.stunSessions txid ∧
      mapGet (c2.handleSTUNResponse env stunResp).1.stunSessions txid = none ∧
      ∀ k, k ≠ txid →
        mapGet (c2.handleSTUNResponse env stunResp).1.stunSessions k = mapGet c2.stunSessions k) ∧
    (∀ other : Bytes,
      (∀ t s, ParseResponse other = .ok (t, s) →
        mapGet c2.stunSessions t = none ∨ env.resolveAddrPort s = none) →
      c2.handleSTUNResponse env other = (c2, none)) ∧
    (∀ (other t : Bytes) (s : AddrPort), ParseResponse other = .ok (t, s) →
      stunIs other = true ∧ t = (other.drop 8).take 12 ∧
        other.get? 0 = some 0x01 ∧ other.get? 1 = some 0x01 ∧
        beUint16 (other.drop 2) ≤ (other.drop stunHeaderLen).length ∧ s.IsValid = true) := by
  have hvalid : saddr.IsValid = true := (ParseResponse_ok _ _ _ hparse).2.2.2.2.2
  refine ⟨⟨?_, ?_, rfl⟩, ⟨(ParseResponse_ok _ _ _ hparse).2.1, ?_⟩, ?_, ?_⟩
  · exact mapSet_of_none _ _ _ hfresh
  · show (mapSet c.stunSessions txID ⟨peerID, now⟩).length = _
    rw [mapSet_of_none _ _ _ hfresh]
    simp
  · have hstep : c2.handleSTUNResponse env stunResp =
        ({ c2 with stunSessions := mapDelete c2.stunSessions txid }, some ⟨tx.PeerID, addr⟩) := by
      simp [UDPConn.handleSTUNResponse, hparse, hget, hvalid, hres]
    rw [hstep]
    exact ⟨rfl, rfl, mapGet_mapDelete_self _ _, fun k hk => mapGet_mapDelete_ne _ hk⟩
  · intro other hskip
    unfold UDPConn.handleSTUNResponse
    cases hp : ParseResponse other with
    | error e => rfl
    | ok r =>
      obtain ⟨t, s⟩ := r
      rcases hskip t s hp with h | h
      · simp [h]
      · cases hg : mapGet c2.stunSessions t <;> simp [h, hg]
  · intro other t s hp
    exact ParseResponse_ok other t s hp

theorem stun_session_accounting_witness :
    mapGet (ListenUDP [67]).stunSessions [1, 2, 3, 4, 5, 6, 7, 8, 9, 10, 11, 12] = none ∧
    ParseResponse
      ([0x01, 0x01, 0x00, 0x0c, 0x21, 0x12, 0xa4, 0x42] ++ [1, 2, 3, 4, 5, 6, 7, 8, 9, 10, 11, 12] ++
        [0x00, 0x20, 0x00, 0x08, 0x00, 0x01, 0x2e, 0xb2, 0xea, 0x12, 0xd5, 0x4b]) =
      .ok ([1, 2, 3, 4, 5, 6, 7, 8, 9, 10, 11, 12], ⟨[203, 0, 113, 9], 4000⟩) ∧
    (((ListenUDP [67]).requestSTUN exampleSTUNEnv [1, 2, 3, 4, 5, 6, 7, 8, 9, 10, 11, 12] 100 [65]
      [[115, 49], [115, 50]]).1.handleSTUNResponse exampleSTUNEnv
        ([0x01, 0x01, 0x00, 0x0c, 0x21, 0x12, 0xa4, 0x42] ++ [1, 2, 3, 4, 5, 6, 7, 8, 9, 10, 11, 12] ++
          [0x00, 0x20, 0x00, 0x08, 0x00, 0x01, 0x2e, 0xb2, 0xea, 0x12, 0xd5, 0x4b])) =
      ({ (ListenUDP [67]) with stunSessions := [] },
        some ⟨[65], ⟨[203, 0, 113, 9], 4000, ""⟩⟩) ∧
    (((ListenUDP [67]).requestSTUN exampleSTUNEnv [1, 2, 3, 4, 5, 6, 7, 8, 9, 10, 11, 12] 100 [65]
      [[115, 49], [115, 50]]).1.handleSTUNResponse exampleSTUNEnv
        ([0x01, 0x01, 0x00, 0x0c, 0x21, 0x12, 0xa4, 0x42] ++ [1, 2, 3, 4, 5, 6, 7, 8, 9, 10, 11, 12] ++
          [0x00, 0x20, 0x00, 0x08, 0x00, 0x01, 0x2e, 0xb2, 0xea, 0x12, 0xd5, 0x4b])).1.stunSessions =
      mapDelete ((ListenUDP [67]).requestSTUN exampleSTUNEnv [1, 2, 3, 4, 5, 6, 7, 8, 9, 10, 11, 12] 100 [65]
        [[115, 49], [115, 50]]).1.stunSessions [1, 2, 3, 4, 5, 6, 7, 8, 9, 10, 11, 12] :=
  ⟨by decide, by rfl, by rfl,
    (stun_session_accounting (ListenUDP [67]) exampleSTUNEnv [1, 2, 3, 4, 5, 6, 7, 8, 9, 10, 11, 12] 100
      [65] [[115, 49], [115, 50]] (by decide)
      ((ListenUDP [67]).requestSTUN exampleSTUNEnv [1, 2, 3, 4, 5, 6, 7, 8, 9, 10, 11, 12] 100 [65]
        [[115, 49], [115, 50]]).1
      ([0x01, 0x01, 0x00, 0x0c, 0x21, 0x12, 0xa4, 0x42] ++ [1, 2, 3, 4, 5, 6, 7, 8, 9, 10, 11, 12] ++
        [0x00, 0x20, 0x00, 0x08, 0x00, 0x01, 0x2e, 0xb2, 0xea, 0x12, 0xd5, 0x4b])
      [1, 2, 3, 4, 5, 6, 7, 8, 9, 10, 11, 12] ⟨[203, 0, 113, 9], 4000⟩ ⟨[65], 100⟩
      ⟨[203, 0, 113, 9], 4000, ""⟩ (by rfl) (by decide) (by decide)).2.1.2.2.1⟩


/-! ## Address equality is an equivalence -/

section NodupFacts

variable {K V : Type} [DecidableEq K]

end NodupFacts

theorem runPeerOPs_keepalive (c : UDPConn) (ops : List (Int × PeerOP)) :
    (c.runPeerOPs ops).peerKeepaliveInterval = c.peerKeepaliveInterval := by
  induction ops generalizing c with
  | nil => rfl
  | cons x rest ih =>
    unfold UDPConn.runPeerOPs
    rw [ih, handlePeerEvent_keepalive]

/-- C11 (counterexample). The table built by `ListenUDP` has no entry for peer
`[65]`; `WriteToUDP` to that peer writes nothing and returns 0 bytes, and the
error it returns is `ErrUseOfClosedConnection`, not `PeerUnreachable`. -/
theorem write_to_absent_peer_reports_closed :
    mapGet (ListenUDP [67]).peersMap [65] = none ∧
    (ListenUDP [67]).WriteToUDP (PeerContext.Ready (ListenUDP [67]) (1000 * Second)) exampleSelect
      exampleSocketWrite [104, 105] [65] =
      { written := [], n := 0, err := some WriteError.ErrUseOfClosedConnection } ∧
    some WriteError.ErrUseOfClosedConnection ≠ some WriteError.PeerUnreachable := by
  decide

/-- C11 (amended). For every peer id that is absent from the table or whose
entry is not ready (has no fresh path), `UDPConn.WriteToUDP(p, peerID)` writes
nothing to the socket and returns 0 bytes together with the error
`ErrUseOfClosedConnection`; no `PeerUnreachable` error exists in the code. -/
theorem write_to_unready_peer (c : UDPConn) (Ready : PeerContext → Bool)
    (Select : PeerContext → UDPAddr) (socketWrite : Bytes → UDPAddr → Int × Option WriteError)
    (p : Bytes) (peerID : PeerID)
    (h : mapGet c.peersMap peerID = none ∨
      ∃ peer, mapGet c.peersMap peerID = some peer ∧ Ready peer = false) :
    c.WriteToUDP Ready Select socketWrite p peerID =
      { written := [], n := 0, err := some WriteError.ErrUseOfClosedConnection } := by
  have hfind : c.findPeer Ready peerID = none := by
    unfold UDPConn.findPeer
    rcases h with h | ⟨peer, h, hr⟩
    · rw [h]
    · rw [h]
      simp [hr]
  unfold UDPConn.WriteToUDP
  rw [hfind]

/-- The witness: peer `[65]` holds a path observed at 100 s and never
confirmed, so it is not ready at 1000 s. -/
theorem write_to_unready_peer_witness :
    (mapGet ((ListenUDP [67]).handlePeerEvent (100 * Second)
        (discoOP [65] ⟨[10, 0, 0, 1], 7000, ""⟩)).peersMap [65] = none ∨
      ∃ peer, mapGet ((ListenUDP [67]).handlePeerEvent (100 * Second)
          (discoOP [65] ⟨[10, 0, 0, 1], 7000, ""⟩)).peersMap [65] = some peer ∧
        PeerContext.Ready (ListenUDP [67]) (1000 * Second) peer = false) ∧
    ((ListenUDP [67]).handlePeerEvent (100 * Second)
      (discoOP [65] ⟨[10, 0, 0, 1], 7000, ""⟩)).WriteToUDP
        (PeerContext.Ready (ListenUDP [67]) (1000 * Second)) exampleSelect exampleSocketWrite
        [104, 105] [65] =
      { written := [], n := 0, err := some WriteError.ErrUseOfClosedConnection } :=
  ⟨Or.inr ⟨⟨[(UDPAddr.String ⟨[10, 0, 0, 1], 7000, ""⟩, ⟨⟨[10, 0, 0, 1], 7000, ""⟩, 0⟩)],
      100 * Second⟩, by decide, by decide⟩,
    write_to_unready_peer _ _ _ _ _ _
      (Or.inr ⟨⟨[(UDPAddr.String ⟨[10, 0, 0, 1], 7000, ""⟩, ⟨⟨[10, 0, 0, 1], 7000, ""⟩, 0⟩)],
        100 * Second⟩, by decide, by decide⟩)⟩

/-! ## The network secret -/

/-- C12. For every `NetworkSecret` `s` and current time `now`, `s.Expired()`
is true if and only if `now ≥ s.Expire`: a secret whose expiry equals the
current instant counts as expired. -/
theorem expired_iff (s : NetworkSecret) (now : Int) :
    s.Expired now = true ↔ s.Expire ≤ now := by
  unfold NetworkSecret.Expired Until Time.Sub
  rw [decide_eq_true_iff, minDuration_eq, maxDuration_eq]
  split
  · constructor <;> intro _ <;> omega
  · split
    · constructor <;> intro _ <;> omega
    · constructor <;> intro _ <;> omega

/-! ## The ping campaign -/

theorem discoLoop_never_fresh (c : UDPConn) (addr : UDPAddr) (closedSig : Nat → Bool)
    (table : Nat → List (PeerID × PeerContext)) (clock : Nat → Int)
    (hka : c.peerKeepaliveInterval ≠ 500 * Millisecond)
    (hnever : ∀ i, c.peerDiscovered addr table clock i = false)
    (hopen : ∀ i, closedSig i = false) :
    ∀ k, k ≤ 32 → ∀ fuel, k + 2 ≤ fuel →
      c.discoLoop addr closedSig table clock fuel (32 - k) (500 * Millisecond) =
        (List.replicate k (PingSent.mk c.pingFrame addr (500 * Millisecond)) ++
          [PingSent.mk c.pingFrame addr c.peerKeepaliveInterval], true) := by
  have hne : (500 * Millisecond = c.peerKeepaliveInterval) = False :=
    eq_false (fun h => hka h.symm)
  intro k
  induction k with
  | zero =>
    intro _ fuel hfuel
    obtain ⟨f, rfl⟩ : ∃ f, fuel = f + 2 := ⟨fuel - 2, by omega⟩
    simp [UDPConn.discoLoop, UDPConn.loopExits, UDPConn.nextInterval, hnever, hopen, hne]
  | succ k ih =>
    intro hk fuel hfuel
    obtain ⟨f, rfl⟩ : ∃ f, fuel = f + 1 := ⟨fuel - 1, by omega⟩
    have hlt : ¬ (32 - (k + 1) ≥ 32) := by omega
    have hnext : 32 - (k + 1) + 1 = 32 - k := by omega
    have := ih (by omega) f (by omega)
    simp only [UDPConn.discoLoop, UDPConn.loopExits, UDPConn.nextInterval, hnever, hopen, hne,
      hlt, hnext]
    simp [List.replicate_succ, this]

theorem discoLoop_always_fresh (c : UDPConn) (addr : UDPAddr) (closedSig : Nat → Bool)
    (table : Nat → List (PeerID × PeerContext)) (clock : Nat → Int)
    (hopen : ∀ i, closedSig i = false) :
    ∀ fuel i interval, (∀ j, i ≤ j → c.peerDiscovered addr table clock j = true) →
      (c.discoLoop addr closedSig table clock fuel i interval).2 = false ∧
      (c.discoLoop addr closedSig table clock fuel i interval).1.length = fuel := by
  intro fuel
  induction fuel with
  | zero => intro i interval _; exact ⟨rfl, rfl⟩
  | succ f ih =>
    intro i interval hfresh
    have hi := hfresh i (Nat.le_refl i)
    have := ih (i + 1) (c.nextInterval true i interval) (fun j hj => hfresh j (by omega))
    simp [UDPConn.discoLoop, UDPConn.loopExits, hopen, hi, this]

theorem discoLoop_zero (c : UDPConn) (addr : UDPAddr) (closedSig : Nat → Bool)
    (table : Nat → List (PeerID × PeerContext)) (clock : Nat → Int) (i : Nat) (iv : Int) :
    c.discoLoop addr closedSig table clock 0 i iv = ([], false) := rfl

theorem discoLoop_succ_exit (c : UDPConn) (addr : UDPAddr) (closedSig : Nat → Bool)
    (table : Nat → List (PeerID × PeerContext)) (clock : Nat → Int) (f i : Nat) (iv : Int)
    (h : c.loopExits (closedSig i) (c.peerDiscovered addr table clock i) iv = true) :
    c.discoLoop addr closedSig table clock (f + 1) i iv = ([], true) := by
  simp [UDPConn.discoLoop, h]

theorem discoLoop_succ_go (c : UDPConn) (addr : UDPAddr) (closedSig : Nat → Bool)
    (table : Nat → List (PeerID × PeerContext)) (clock : Nat → Int) (f i : Nat) (iv : Int)
    (h : c.loopExits (closedSig i) (c.peerDiscovered addr table clock i) iv = false) :
    c.discoLoop addr closedSig table clock (f + 1) i iv =
      (PingSent.mk c.pingFrame addr (c.nextInterval (c.peerDiscovered addr table clock i) i iv) ::
        (c.discoLoop addr closedSig table clock f (i + 1)
          (c.nextInterval (c.peerDiscovered addr table clock i) i iv)).1,
        (c.discoLoop addr closedSig table clock f (i + 1)
          (c.nextInterval (c.peerDiscovered addr table clock i) i iv)).2) := by
  simp [UDPConn.discoLoop, h]

theorem loopExits_open (c : UDPConn) (discovered : Bool) (iv : Int) :
    c.loopExits false discovered iv = true ↔ (iv = c.peerKeepaliveInterval ∧ discovered = false) := by
  simp [UDPConn.loopExits]

theorem nextInterval_slowed (c : UDPConn) (discovered : Bool) (i : Nat) (iv : Int)
    (h : discovered = true ∨ 32 ≤ i) : c.nextInterval discovered i iv = c.peerKeepaliveInterval := by
  unfold UDPConn.nextInterval
  rw [if_pos h]

theorem nextInterval_kept (c : UDPConn) (discovered : Bool) (i : Nat) (iv : Int)
    (h : ¬ (discovered = true ∨ 32 ≤ i)) : c.nextInterval discovered i iv = iv := by
  unfold UDPConn.nextInterval
  rw [if_neg h]

/-- The general rule of the loop, from any turn `i` that is reached with an
interval `iv` which is the keepalive exactly when an earlier turn slowed it. -/
theorem discoLoop_exit_rule (c : UDPConn) (addr : UDPAddr) (closedSig : Nat → Bool)
    (table : Nat → List (PeerID × PeerContext)) (clock : Nat → Int)
    (hopen : ∀ i, closedSig i = false) :
    ∀ n i iv,
      (iv = c.peerKeepaliveInterval ↔
        ∃ j, j < i ∧ (c.peerDiscovered addr table clock j = true ∨ 32 ≤ j)) →
      (c.discoLoop addr closedSig table clock n i iv).2 = false →
      (c.discoLoop addr closedSig table clock n i iv).1.length = n ∧
      ((c.discoLoop addr closedSig table clock (n + 1) i iv).2 = true ↔
        ((∃ j, j < i + n ∧ (c.peerDiscovered addr table clock j = true ∨ 32 ≤ j)) ∧
          c.peerDiscovered addr table clock (i + n) = false)) ∧
      ((c.discoLoop addr closedSig table clock (n + 1) i iv).2 = true →
        ∀ fuel, n < fuel → c.discoLoop addr closedSig table clock fuel i iv =
          ((c.discoLoop addr closedSig table clock n i iv).1, true)) ∧
      (∀ j, j < n → ∃ w,
        (c.discoLoop addr closedSig table clock n i iv).1.get? j =
          some (PingSent.mk c.pingFrame addr w) ∧
        ((∃ k, k ≤ i + j ∧ (c.peerDiscovered addr table clock k = true ∨ 32 ≤ k)) →
          w = c.peerKeepaliveInterval) ∧
        ((¬ ∃ k, k ≤ i + j ∧ (c.peerDiscovered addr table clock k = true ∨ 32 ≤ k)) →
          w = iv)) := by
  intro n
  induction n with
  | zero =>
    intro i iv hinv _
    refine ⟨rfl, ?_, ?_, ?_⟩
    · cases hx : c.loopExits (closedSig i) (c.peerDiscovered addr table clock i) iv with
      | true =>
        rw [discoLoop_succ_exit _ _ _ _ _ _ _ _ hx]
        rw [hopen i, loopExits_open] at hx
        simp only [Nat.add_zero, true_iff]
        exact ⟨hinv.1 hx.1, hx.2⟩
      | false =>
        rw [discoLoop_succ_go _ _ _ _ _ _ _ _ hx]
        simp only [discoLoop_zero, Nat.add_zero]
        constructor
        · intro h; cases h
        · intro h
          have : c.loopExits (closedSig i) (c.peerDiscovered addr table clock i) iv = true := by
            rw [hopen i, loopExits_open]
            exact ⟨hinv.2 h.1, h.2⟩
          rw [hx] at this
          cases this
    · intro h fuel hfuel
      obtain ⟨f, rfl⟩ : ∃ f, fuel = f + 1 := ⟨fuel - 1, by omega⟩
      cases hx : c.loopExits (closedSig i) (c.peerDiscovered addr table clock i) iv with
      | true => rw [discoLoop_succ_exit _ _ _ _ _ _ _ _ hx]; rfl
      | false =>
        rw [discoLoop_succ_go _ _ _ _ _ _ _ _ hx] at h
        simp only [discoLoop_zero] at h
        cases h
    · intro j hj
      omega
  | succ n ih =>
    intro i iv hinv hrun
    cases hx : c.loopExits (closedSig i) (c.peerDiscovered addr table clock i) iv with
    | true =>
      rw [discoLoop_succ_exit _ _ _ _ _ _ _ _ hx] at hrun
      cases hrun
    | false =>
      rw [discoLoop_succ_go _ _ _ _ _ _ _ _ hx] at hrun
      have hinv' : (c.nextInterval (c.peerDiscovered addr table clock i) i iv =
          c.peerKeepaliveInterval ↔
          ∃ j, j < i + 1 ∧ (c.peerDiscovered addr table clock j = true ∨ 32 ≤ j)) := by
        by_cases hs : c.peerDiscovered addr table clock i = true ∨ 32 ≤ i
        · rw [nextInterval_slowed _ _ _ _ hs]
          exact ⟨fun _ => ⟨i, by omega, hs⟩, fun _ => rfl⟩
        · rw [nextInterval_kept _ _ _ _ hs, hinv]
          constructor
          · rintro ⟨j, hj, hjs⟩
            exact ⟨j, by omega, hjs⟩
          · rintro ⟨j, hj, hjs⟩
            have hne : j ≠ i := fun e => hs (e ▸ hjs)
            exact ⟨j, by omega, hjs⟩
      obtain ⟨hlen, hiff, hstop, hwait⟩ := ih (i + 1) _ hinv' hrun
      have e1 : i + 1 + n = i + (n + 1) := by omega
      rw [e1] at hiff
      refine ⟨?_, ?_, ?_, ?_⟩
      · rw [discoLoop_succ_go _ _ _ _ _ _ _ _ hx]
        simp [hlen]
      · rw [discoLoop_succ_go _ _ _ _ _ _ _ _ hx]
        exact hiff
      · intro h fuel hfuel
        obtain ⟨f, rfl⟩ : ∃ f, fuel = f + 1 := ⟨fuel - 1, by omega⟩
        rw [discoLoop_succ_go _ _ _ _ _ _ _ _ hx] at h
        rw [discoLoop_succ_go _ _ _ _ _ n _ _ hx, discoLoop_succ_go _ _ _ _ _ f _ _ hx,
          hstop h f (by omega)]
      · intro j hj
        rw [discoLoop_succ_go _ _ _ _ _ _ _ _ hx]
        cases j with
        | zero =>
          refine ⟨_, rfl, ?_, ?_⟩
          · rintro ⟨k, hk, hks⟩
            exact hinv'.2 ⟨k, by omega, hks⟩
          · intro hno
            apply nextInterval_kept
            intro hs
            exact hno ⟨i, by omega, hs⟩
        | succ j =>
          obtain ⟨w, hw, hslow, hkeep⟩ := hwait j (by omega)
          have e2 : i + 1 + j = i + (j + 1) := by omega
          rw [e2] at hslow hkeep
          refine ⟨w, ?_, hslow, ?_⟩
          · simpa using hw
          · intro hno
            rw [hkeep hno]
            apply nextInterval_kept
            intro hs
            exact hno ⟨i, by omega, hs⟩

theorem discoLoop_exit_stays (c : UDPConn) (addr : UDPAddr) (closedSig : Nat → Bool)
    (table : Nat → List (PeerID × PeerContext)) (clock : Nat → Int) :
    ∀ n i iv, (c.discoLoop addr closedSig table clock n i iv).2 = true →
      (c.discoLoop addr closedSig table clock (n + 1) i iv).2 = true := by
  intro n
  induction n with
  | zero => intro i iv h; cases h
  | succ n ih =>
    intro i iv h
    cases hx : c.loopExits (closedSig i) (c.peerDiscovered addr table clock i) iv with
    | true => rw [discoLoop_succ_exit _ _ _ _ _ _ _ _ hx]
    | false =>
      rw [discoLoop_succ_go _ _ _ _ _ _ _ _ hx] at h
      rw [discoLoop_succ_go _ _ _ _ _ _ _ _ hx]
      exact ih _ _ h

theorem peerDiscovered_true_iff (c : UDPConn) (addr : UDPAddr)
    (table : Nat → List (PeerID × PeerContext)) (clock : Nat → Int) (i : Nat) :
    c.peerDiscovered addr table clock i = true ↔
      (c.withOrder (table i)).findPeerID (clock i) (some addr) ≠ [] := by
  simp [UDPConn.peerDiscovered]

theorem peerDiscovered_false_iff (c : UDPConn) (addr : UDPAddr)
    (table : Nat → List (PeerID × PeerContext)) (clock : Nat → Int) (i : Nat) :
    c.peerDiscovered addr table clock i = false ↔
      (c.withOrder (table i)).findPeerID (clock i) (some addr) = [] := by
  simp [UDPConn.peerDiscovered]

/-- The loop started as `RunDiscoMessageSendLoop` starts it is still running
after `n` turns exactly when none of these turns was reached with a slowed
interval and an address that is not fresh. -/
theorem discoLoop_running_iff (c : UDPConn) (addr : UDPAddr) (closedSig : Nat → Bool)
    (table : Nat → List (PeerID × PeerContext)) (clock : Nat → Int)
    (hka : c.peerKeepaliveInterval ≠ 500 * Millisecond) (hopen : ∀ i, closedSig i = false) :
    ∀ n, (c.discoLoop addr closedSig table clock n 0 (500 * Millisecond)).2 = false ↔
      ∀ m, m < n →
        ¬ ((∃ j, j < m ∧ (c.peerDiscovered addr table clock j = true ∨ 32 ≤ j)) ∧
          c.peerDiscovered addr table clock m = false) := by
  have hinv : (500 * Millisecond = c.peerKeepaliveInterval ↔
      ∃ j, j < 0 ∧ (c.peerDiscovered addr table clock j = true ∨ 32 ≤ j)) := by
    constructor
    · intro h; exact absurd h.symm hka
    · rintro ⟨j, hj, _⟩; omega
  intro n
  induction n with
  | zero =>
    constructor
    · intro _ m hm; omega
    · intro _; rfl
  | succ n ih =>
    constructor
    · intro h m hm
      have hn : (c.discoLoop addr closedSig table clock n 0 (500 * Millisecond)).2 = false := by
        cases hb : (c.discoLoop addr closedSig table clock n 0 (500 * Millisecond)).2 with
        | false => rfl
        | true =>
          rw [discoLoop_exit_stays _ _ _ _ _ _ _ _ hb] at h
          cases h
      by_cases hmn : m < n
      · exact ih.1 hn m hmn
      · have hmeq : m = n := by omega
        subst hmeq
        intro hcond
        have hiff := (discoLoop_exit_rule c addr closedSig table clock hopen m 0 _ hinv hn).2.1
        rw [Nat.zero_add] at hiff
        rw [hiff.2 hcond] at h
        cases h
    · intro hall
      have hn := ih.2 (fun m hm => hall m (by omega))
      have hiff := (discoLoop_exit_rule c addr closedSig table clock hopen n 0 _ hinv hn).2.1
      rw [Nat.zero_add] at hiff
      cases hb : (c.discoLoop addr closedSig table clock (n + 1) 0 (500 * Millisecond)).2 with
      | false => rfl
      | true => exact absurd (hiff.1 hb) (hall n (by omega))

/-- C14. Ping campaign schedule and termination, with no close signal and a
keepalive other than 500 ms (it is 10 s). For an address that `findPeerID`
never reports as fresh, `RunDiscoMessageSendLoop` terminates, within 34 turns,
after sending exactly 33 pings, the first 32 each followed by a 500 ms wait and
the 33rd by a keepalive wait. In general, say that the interval has been slowed
before turn `n` when at an earlier turn the address was fresh or the turn
number was at least 32. The loop is still running after `n` turns exactly when
no turn before `n` found the interval slowed and the address not fresh; it has
then sent `n` pings, the ping of turn `j` followed by a keepalive wait if the
interval has been slowed before turn `j + 1` and by a 500 ms wait otherwise;
and it leaves at turn `n` exactly when the interval has been slowed before
turn `n` and the address is not fresh at turn `n`, and then with any larger
number of turns allowed the result is these `n` pings and the exit. So while
the address stays fresh the loop never exits, it sends one ping per turn. -/
theorem ping_campaign_schedule (c : UDPConn) (peerID : PeerID) (addr : UDPAddr)
    (closedSig : Nat → Bool) (table : Nat → List (PeerID × PeerContext)) (clock : Nat → Int)
    (hka : c.peerKeepaliveInterval ≠ 500 * Millisecond) (hopen : ∀ i, closedSig i = false) :
    ((∀ i, (c.withOrder (table i)).findPeerID (clock i) (some addr) = []) →
      ∀ fuel, 34 ≤ fuel →
        c.RunDiscoMessageSendLoop peerID addr closedSig table clock fuel =
          (discoOP peerID addr,
            List.replicate 32 (PingSent.mk c.pingFrame addr (500 * Millisecond)) ++
              [PingSent.mk c.pingFrame addr c.peerKeepaliveInterval], true) ∧
        (List.replicate 32 (PingSent.mk c.pingFrame addr (500 * Millisecond)) ++
              [PingSent.mk c.pingFrame addr c.peerKeepaliveInterval]).length = 33) ∧
    (∀ n, (c.RunDiscoMessageSendLoop peerID addr closedSig table clock n).2.2 = false ↔
      ∀ m, m < n →
        ¬ ((∃ j, j < m ∧
            ((c.withOrder (table j)).findPeerID (clock j) (some addr) ≠ [] ∨ 32 ≤ j)) ∧
          (c.withOrder (table m)).findPeerID (clock m) (some addr) = [])) ∧
    (∀ n, (c.RunDiscoMessageSendLoop peerID addr closedSig table clock n).2.2 = false →
      (c.RunDiscoMessageSendLoop peerID addr closedSig table clock n).2.1.length = n ∧
      ((c.RunDiscoMessageSendLoop peerID addr closedSig table clock (n + 1)).2.2 = true ↔
        ((∃ j, j < n ∧
            ((c.withOrder (table j)).findPeerID (clock j) (some addr) ≠ [] ∨ 32 ≤ j)) ∧
          (c.withOrder (table n)).findPeerID (clock n) (some addr) = [])) ∧
      ((c.RunDiscoMessageSendLoop peerID addr closedSig table clock (n + 1)).2.2 = true →
        ∀ fuel, n < fuel →
          c.RunDiscoMessageSendLoop peerID addr closedSig table clock fuel =
            (discoOP peerID addr,
              (c.RunDiscoMessageSendLoop peerID addr closedSig table clock n).2.1, true)) ∧
      (∀ j, j < n → ∃ w,
        (c.RunDiscoMessageSendLoop peerID addr closedSig table clock n).2.1.get? j =
          some (PingSent.mk c.pingFrame addr w) ∧
        ((∃ k, k ≤ j ∧
            ((c.withOrder (table k)).findPeerID (clock k) (some addr) ≠ [] ∨ 32 ≤ k)) →
          w = c.peerKeepaliveInterval) ∧
        ((¬ ∃ k, k ≤ j ∧
            ((c.withOrder (table k)).findPeerID (clock k) (some addr) ≠ [] ∨ 32 ≤ k)) →
          w = 500 * Millisecond))) ∧
    ((∀ i, (c.withOrder (table i)).findPeerID (clock i) (some addr) ≠ []) →
      ∀ fuel, (c.RunDiscoMessageSendLoop peerID addr closedSig table clock fuel).2.2 = false ∧
        (c.RunDiscoMessageSendLoop peerID addr closedSig table clock fuel).2.1.length = fuel) := by
  have hinv : (500 * Millisecond = c.peerKeepaliveInterval ↔
      ∃ j, j < 0 ∧ (c.peerDiscovered addr table clock j = true ∨ 32 ≤ j)) := by
    constructor
    · intro h; exact absurd h.symm hka
    · rintro ⟨j, hj, _⟩; omega
  refine ⟨?_, ?_, ?_, ?_⟩
  · intro hnever fuel hfuel
    have hnever' : ∀ i, c.peerDiscovered addr table clock i = false := by
      intro i
      simp [UDPConn.peerDiscovered, hnever i]
    refine ⟨?_, by simp⟩
    unfold UDPConn.RunDiscoMessageSendLoop
    rw [← discoLoop_never_fresh c addr closedSig table clock hka hnever' hopen 32 (Nat.le_refl _)
      fuel (by omega)]
  · intro n
    have h := discoLoop_running_iff c addr closedSig table clock hka hopen n
    simp only [peerDiscovered_true_iff, peerDiscovered_false_iff] at h
    exact h
  · intro n hrun
    have h := discoLoop_exit_rule c addr closedSig table clock hopen n 0 _ hinv hrun
    simp only [peerDiscovered_true_iff, peerDiscovered_false_iff, Nat.zero_add] at h
    obtain ⟨h1, h2, h3, h4⟩ := h
    refine ⟨h1, h2, ?_, h4⟩
    intro hexit fuel hfuel
    show (discoOP peerID addr, c.discoLoop addr closedSig table clock fuel 0 (500 * Millisecond)) = _
    rw [h3 hexit fuel hfuel]
    rfl
  · intro hfresh fuel
    have hfresh' : ∀ j, 0 ≤ j → c.peerDiscovered addr table clock j = true := by
      intro j _
      simp [UDPConn.peerDiscovered, hfresh j]
    exact discoLoop_always_fresh c addr closedSig table clock hopen fuel 0 _ hfresh'

theorem ping_campaign_schedule_witness :
    (ListenUDP [67]).peerKeepaliveInterval ≠ 500 * Millisecond ∧
    (∀ i : Nat, (fun _ => false) i = false) ∧
    (ListenUDP [67]).RunDiscoMessageSendLoop [65] ⟨[10, 0, 0, 1], 7000, ""⟩ (fun _ => false)
        (fun _ => []) (fun i => 1000 * Second + i) 40 =
      (discoOP [65] ⟨[10, 0, 0, 1], 7000, ""⟩,
        List.replicate 32 (PingSent.mk (ListenUDP [67]).pingFrame ⟨[10, 0, 0, 1], 7000, ""⟩
          (500 * Millisecond)) ++
          [PingSent.mk (ListenUDP [67]).pingFrame ⟨[10, 0, 0, 1], 7000, ""⟩
            (ListenUDP [67]).peerKeepaliveInterval], true) ∧
    (ListenUDP [67]).RunDiscoMessageSendLoop [65] ⟨[10, 0, 0, 1], 7000, ""⟩ (fun _ => false)
        (fun _ => [([65], ⟨[(UDPAddr.String ⟨[10, 0, 0, 1], 7000, ""⟩,
          ⟨⟨[10, 0, 0, 1], 7000, ""⟩, 1000 * Second⟩)], 1000 * Second⟩)])
        (fun i => 1000 * Second + i * (30 * Second)) 5 =
      (discoOP [65] ⟨[10, 0, 0, 1], 7000, ""⟩,
        [PingSent.mk (ListenUDP [67]).pingFrame ⟨[10, 0, 0, 1], 7000, ""⟩ (10 * Second)], true) :=
  ⟨by decide, fun _ => rfl,
    ((ping_campaign_schedule (ListenUDP [67]) [65] ⟨[10, 0, 0, 1], 7000, ""⟩ (fun _ => false)
      (fun _ => []) (fun i => 1000 * Second + i) (by decide) (fun _ => rfl)).1
      (fun _ => rfl) 40 (by decide)).1,
    ((ping_campaign_schedule (ListenUDP [67]) [65] ⟨[10, 0, 0, 1], 7000, ""⟩ (fun _ => false)
      (fun _ => [([65], ⟨[(UDPAddr.String ⟨[10, 0, 0, 1], 7000, ""⟩,
          ⟨⟨[10, 0, 0, 1], 7000, ""⟩, 1000 * Second⟩)], 1000 * Second⟩)])
      (fun i => 1000 * Second + i * (30 * Second)) (by decide) (fun _ => rfl)).2.2.1
      1 (by decide)).2.2.1
      (((ping_campaign_schedule (ListenUDP [67]) [65] ⟨[10, 0, 0, 1], 7000, ""⟩ (fun _ => false)
        (fun _ => [([65], ⟨[(UDPAddr.String ⟨[10, 0, 0, 1], 7000, ""⟩,
            ⟨⟨[10, 0, 0, 1], 7000, ""⟩, 1000 * Second⟩)], 1000 * Second⟩)])
        (fun i => 1000 * Second + i * (30 * Second)) (by decide) (fun _ => rfl)).2.2.1
        1 (by decide)).2.1.2 ⟨⟨0, by decide, Or.inl (by decide)⟩, by decide⟩) 5 (by decide)⟩


/-! ## The administrator API -/

/-- A secret that `ParseSecret` accepts was decoded, decrypted and parsed, and
its deadline is later than the clock reading. -/
theorem ParseSecret_ok (auth : Authenticator) (env : AdminEnv) (now : Int) (token : String)
    (s : JSONSecret) (h : auth.ParseSecret env now token = (s, none)) :
    ∃ chiperData plainData, env.DecodeString token = some chiperData ∧
      env.Decrypt auth.key chiperData = some plainData ∧
      env.Unmarshal plainData = some s ∧ 0 < Until now (timeUnix s.Deadline) := by
  unfold Authenticator.ParseSecret at h
  cases hd : env.DecodeString token with
  | none => simp [hd] at h
  | some chiperData =>
    cases hc : env.Decrypt auth.key chiperData with
    | none => simp [hd, hc] at h
    | some plainData =>
      cases hu : env.Unmarshal plainData with
      | none => simp [hd, hc, hu] at h
      | some tok =>
        simp only [hd, hc, hu] at h
        by_cases hexp : Until now (timeUnix tok.Deadline) ≤ 0
        · simp [hexp] at h
        · simp only [hexp, if_false, Prod.mk.injEq, and_true] at h
          subst h
          exact ⟨chiperData, plainData, rfl, hc, hu, by omega⟩

/-- An error of `ParseSecret` is one of its two error values. -/
theorem ParseSecret_err (auth : Authenticator) (env : AdminEnv) (now : Int) (token : String)
    (s : JSONSecret) (e : LangsError) (h : auth.ParseSecret env now token = (s, some e)) :
    e = ErrInvalidToken ∨ (e = ErrTokenExpired ∧ Until now (timeUnix s.Deadline) ≤ 0) := by
  unfold Authenticator.ParseSecret at h
  cases hd : env.DecodeString token with
  | none => simp [hd] at h; exact Or.inl h.2.symm
  | some chiperData =>
    cases hc : env.Decrypt auth.key chiperData with
    | none => simp [hd, hc] at h; exact Or.inl h.2.symm
    | some plainData =>
      cases hu : env.Unmarshal plainData with
      | none => simp [hd, hc, hu] at h; exact Or.inl h.2.symm
      | some tok =>
        simp only [hd, hc, hu] at h
        by_cases hexp : Until now (timeUnix tok.Deadline) ≤ 0
        · simp only [hexp, if_true, Prod.mk.injEq, Option.some.injEq] at h
          obtain ⟨h1, h2⟩ := h
          subst h1
          exact Or.inr ⟨h2.symm, hexp⟩
        · simp [hexp] at h

/-- A positive `time.Until(time.Unix(sec, 0))` means that the instant `sec`
seconds after the Unix epoch is strictly later than the clock reading. -/
theorem deadline_in_future (now sec : Int) (h : 0 < Until now (timeUnix sec))
    (hsec : minDuration ≤ sec) : now < (sec + unixToInternal) * Second := by
  unfold Until Time.Sub at h
  rw [minDuration_eq, maxDuration_eq] at h
  rw [minDuration_eq] at hsec
  have hw : timeUnix sec ≤ (sec + unixToInternal) * Second := by
    unfold timeUnix wrapInt64 unixToInternal Second
    norm_num
    omega
  have hpos : 0 < timeUnix sec - now := by
    split at h
    · omega
    · split at h <;> omega
  omega

/-- C15. Admin API authorization: for every request to
`AdministratorV1.ServeHTTP`, the mux (and so a route handler) is invoked only
if `ParseSecret` succeeds on the `X-Token` header, that is the token decodes,
decrypts, parses and its deadline is strictly in the future, and the parsed
secret has `Admin = true`. If `ParseSecret` returns an error the response is
that error, if `Admin` is false the response is `ErrForbidden`, and in both
cases the mux is not invoked and no `X-Set-Token` header is added. -/
theorem admin_authorization (a : AdministratorV1) (env : AdminEnv) (now : Int) (r : Request) :
    (∀ r' s, (a.ServeHTTP env now r).served = Served.mux r' s →
      r' = r ∧ a.Auth.ParseSecret env now r.XToken = (s, none) ∧ s.Admin = true ∧
      (∃ chiperData plainData, env.DecodeString r.XToken = some chiperData ∧
        env.Decrypt a.Auth.key chiperData = some plainData ∧
        env.Unmarshal plainData = some s) ∧
      0 < Until now (timeUnix s.Deadline) ∧
      (minDuration ≤ s.Deadline → now < (s.Deadline + unixToInternal) * Second)) ∧
    (∀ s e, a.Auth.ParseSecret env now r.XToken = (s, some e) →
      a.ServeHTTP env now r = { SetToken := [], served := Served.error e }) ∧
    (∀ s, a.Auth.ParseSecret env now r.XToken = (s, none) → s.Admin = false →
      a.ServeHTTP env now r = { SetToken := [], served := Served.error ErrForbidden }) := by
  refine ⟨?_, ?_, ?_⟩
  · intro r' s h
    unfold AdministratorV1.ServeHTTP at h
    rcases hp : a.Auth.ParseSecret env now r.XToken with ⟨secret, err⟩
    rw [hp] at h
    cases err with
    | some e => simp at h
    | none =>
      by_cases hadm : secret.Admin = true
      · simp only [hadm, Bool.not_true] at h
        simp only [Bool.false_eq_true, if_false, Served.mux.injEq] at h
        obtain ⟨h1, h2⟩ := h
        subst h1; subst h2
        obtain ⟨cd, pd, h1, h2, h3, h4⟩ := ParseSecret_ok a.Auth env now r.XToken secret hp
        exact ⟨rfl, rfl, hadm, ⟨cd, pd, h1, h2, h3⟩, h4, deadline_in_future now _ h4⟩
      · simp [hadm] at h
  · intro s e hp
    unfold AdministratorV1.ServeHTTP
    rw [hp]
  · intro s hp hadm
    unfold AdministratorV1.ServeHTTP
    rw [hp]
    simp [hadm]


/-! ## The command line of the VPN client -/

/-- A call of the second half of `parseOne` that sets a flag: the flag is
defined, its value was accepted and assigned, and the flag is entered in
`actual` with that value. -/
theorem setNamed_seen (P : FlagParsers) (name : String) (value : Option String)
    (args : List String) (v : FlagVars) (actual : List (String × String))
    (args' : List String) (v' : FlagVars) (actual' : List (String × String))
    (h : setNamed P name value args v actual = ParseStep.seen args' v' actual') :
    args'.length ≤ args.length ∧
    ∃ x val, mapGet formal name = some x ∧ v' = (x.Set P val v).1 ∧
      actual' = actual ++ [(name, val)] := by
  unfold setNamed at h
  cases hf : mapGet formal name with
  | none =>
    rw [hf] at h
    simp only at h
    split_ifs at h
  | some flag =>
    rw [hf] at h
    simp only at h
    by_cases hb : flag.IsBoolFlag = true
    · rw [if_pos hb] at h
      split_ifs at h
      injection h with ha hv ht
      subst ha; subst hv; subst ht
      exact ⟨Nat.le_refl _, flag, _, rfl, rfl, rfl⟩
    · rw [if_neg hb] at h
      cases value with
      | some val =>
        simp only at h
        split_ifs at h
        injection h with ha hv ht
        subst ha; subst hv; subst ht
        exact ⟨Nat.le_refl _, flag, _, rfl, rfl, rfl⟩
      | none =>
        cases args with
        | nil => cases h
        | cons val rest =>
          simp only at h
          split_ifs at h
          injection h with ha hv ht
          subst ha; subst hv; subst ht
          exact ⟨by simp, flag, _, rfl, rfl, rfl⟩

/-- A call of `parseOne` that sees a flag consumes at least one argument, sets
one defined flag and enters it in `actual`. -/
theorem parseOne_seen (P : FlagParsers) (args : List String) (v : FlagVars)
    (actual : List (String × String))
    (args' : List String) (v' : FlagVars) (actual' : List (String × String))
    (h : parseOne P args v actual = ParseStep.seen args' v' actual') :
    args'.length < args.length ∧
    ∃ name x val, mapGet formal name = some x ∧ v' = (x.Set P val v).1 ∧
      actual' = actual ++ [(name, val)] := by
  unfold parseOne at h
  cases args with
  | nil => cases h
  | cons s rest =>
    simp only at h
    split_ifs at h
    obtain ⟨hlen, x, val, h1, h2, h3⟩ := setNamed_seen P _ _ rest v actual args' v' actual' h
    exact ⟨by simp only [List.length_cons]; omega, _, x, val, h1, h2, h3⟩

/-- One turn more than there are arguments is enough fuel: more fuel gives the
same result. -/
theorem parseFlags_fuel (P : FlagParsers) :
    ∀ (fuel fuel' : Nat) (args : List String) (v : FlagVars) (actual : List (String × String)),
      args.length < fuel → args.length < fuel' →
      parseFlags P fuel args v actual = parseFlags P fuel' args v actual := by
  intro fuel
  induction fuel with
  | zero => intro fuel' args v actual h; omega
  | succ f ih =>
    intro fuel' args v actual h h'
    obtain ⟨f', rfl⟩ : ∃ f', fuel' = f' + 1 := ⟨fuel' - 1, by omega⟩
    unfold parseFlags
    cases hstep : parseOne P args v actual with
    | done v' err => rfl
    | seen args' v' actual' =>
      simp only
      have hlen := (parseOne_seen P args v actual args' v' actual' hstep).1
      exact ih f' args' v' actual' (by omega) (by omega)
/-- The witness: at 1 700 000 000 s after the Unix epoch the request with the
token `"tok"` reaches the mux, and what C15 states of such a request holds. -/
theorem admin_authorization_witness :
    ((AdministratorV1.mk 0 0 ⟨[7]⟩).ServeHTTP exampleAdminEnv
        ((1700000000 + unixToInternal) * Second) ⟨"GET", "/pg/apis/v1/admin/peers", "tok"⟩).served =
      Served.mux ⟨"GET", "/pg/apis/v1/admin/peers", "tok"⟩
        (JSONSecret.mk "net" true "" [] 2000000000) ∧
    (JSONSecret.mk "net" true "" [] 2000000000).Admin = true ∧
    0 < Until ((1700000000 + unixToInternal) * Second) (timeUnix 2000000000) :=
  ⟨by decide,
    ((admin_authorization (AdministratorV1.mk 0 0 ⟨[7]⟩) exampleAdminEnv
      ((1700000000 + unixToInternal) * Second) ⟨"GET", "/pg/apis/v1/admin/peers", "tok"⟩).1
      ⟨"GET", "/pg/apis/v1/admin/peers", "tok"⟩ (JSONSecret.mk "net" true "" [] 2000000000)
      (by decide)).2.2.1,
    ((admin_authorization (AdministratorV1.mk 0 0 ⟨[7]⟩) exampleAdminEnv
      ((1700000000 + unixToInternal) * Second) ⟨"GET", "/pg/apis/v1/admin/peers", "tok"⟩).1
      ⟨"GET", "/pg/apis/v1/admin/peers", "tok"⟩ (JSONSecret.mk "net" true "" [] 2000000000)
      (by decide)).2.2.2.2.1⟩

end Disco
